import Mathlib

/-!
Verification of the Mahnroboter accounts-receivable system.

This file gives a shallow embedding, in Lean, of the core data model and
operations of the repository (an SQLite-backed invoice ledger with snapshot
reconciliation, fuzzy customer matching and a staged reminder process), and
proves or refutes the specification claims about them.

Conventions of the embedding:
- SQLite tables become Lean lists of row structures; `AUTOINCREMENT` ids are
  threaded explicitly through the state.
- SQL `NULL` becomes `Option`; SQL three-valued `=` on a nullable column
  matches only non-null equal values, which the embedding reproduces at each
  query site.
- Python strings are modelled as `List Char`; `str.lower` is modelled for
  ASCII letters and the German umlauts that occur in this domain.
- Floating-point score arithmetic (weights 0.5/0.3/0.2/0.7 in the fuzzy
  matcher) is modelled exactly over `Nat`, scaled by 10; Python's `round`
  (half to even) is modelled exactly. All inputs evaluated concretely below
  are far from the float/decimal discrepancy region, so the model and the
  float code agree on them.
-/

/-! ### Python string primitives -/

/-- Python `str.lower` restricted to the alphabet this system sees:
ASCII letters and the German umlauts. All other characters are unchanged
(in particular `'ß'` is a lowercase letter and stays as it is). -/
def pyLower (c : Char) : Char :=
  if c = 'Ä' then 'ä'
  else if c = 'Ö' then 'ö'
  else if c = 'Ü' then 'ü'
  else c.toLower

/-- Python `str.strip`: drop leading and trailing whitespace. -/
def stripWs (l : List Char) : List Char :=
  ((l.dropWhile Char.isWhitespace).reverse.dropWhile Char.isWhitespace).reverse

/-- Does `pat` occur at the head of `l`? -/
def startsWithList : List Char → List Char → Bool
  | [], _ => true
  | _ :: _, [] => false
  | p :: ps, c :: cs => p = c && startsWithList ps cs

/-- One fuel-indexed pass of Python `str.replace`: scan left to right and
replace each non-overlapping occurrence of `pat`. The fuel only bounds the
recursion; `pyReplace` supplies enough for the whole input. -/
def replaceAux (pat rep : List Char) : Nat → List Char → List Char
  | 0, rest => rest
  | _ + 1, [] => []
  | fuel + 1, c :: cs =>
    if startsWithList pat (c :: cs) then
      rep ++ replaceAux pat rep fuel (List.drop (pat.length - 1) cs)
    else
      c :: replaceAux pat rep fuel cs

/-- Python `s.replace(pat, rep)` for a non-empty pattern (every pattern used
by the source is non-empty). -/
def pyReplace (s pat rep : List Char) : List Char :=
  if pat = [] then s else replaceAux pat rep s.length s

/-- Python `str.split()` with no argument: split on runs of whitespace,
discarding empty pieces. `cur` holds the current word, reversed. -/
def splitWsGo : List Char → List Char → List (List Char)
  | cur, [] => if cur = [] then [] else [cur.reverse]
  | cur, c :: cs =>
    if c.isWhitespace then
      if cur = [] then splitWsGo [] cs else cur.reverse :: splitWsGo [] cs
    else
      splitWsGo (c :: cur) cs

/-- Python `str.split()` with no argument. -/
def splitWs (l : List Char) : List (List Char) := splitWsGo [] l

/-! ### normalize_string (invoice_tracker.py) -/

/-- The body of `normalize_string` on character lists: lower-case and strip,
delete `.` and `,`, turn `-` into a space, then apply the replacement dict
`{"str": "strasse", "straße": "strasse", "strasse": "strasse",
"str.": "strasse"}` in its (insertion) iteration order, and finally collapse
whitespace runs. -/
def normalizeList (l : List Char) : List Char :=
  if l = [] then []
  else
    let n := stripWs (l.map pyLower)
    let n := pyReplace n ['.'] []
    let n := pyReplace n [','] []
    let n := pyReplace n ['-'] [' ']
    let n := pyReplace n "str".data "strasse".data
    let n := pyReplace n "straße".data "strasse".data
    let n := pyReplace n "strasse".data "strasse".data
    let n := pyReplace n "str.".data "strasse".data
    List.intercalate [' '] (splitWs n)

/-- `normalize_string` from invoice_tracker.py. -/
def normalize_string (s : String) : String := ⟨normalizeList s.data⟩

/-! ### Fuzzy matching (thefuzz `fuzz.ratio` and the weighted score of
`find_similar_customers`) -/

/-- Fuel-indexed longest common subsequence. Each recursive call shortens the
combined input by at least one character, so fuel `a.length + b.length`
(supplied by `lcs`) is never exhausted. -/
def lcsF : Nat → List Char → List Char → Nat
  | 0, _, _ => 0
  | _ + 1, [], _ => 0
  | _ + 1, _ :: _, [] => 0
  | fuel + 1, a :: as, b :: bs =>
    if a = b then lcsF fuel as bs + 1
    else max (lcsF fuel as (b :: bs)) (lcsF fuel (a :: as) bs)

/-- Longest common subsequence of two character lists. -/
def lcs (a b : List Char) : Nat := lcsF (a.length + b.length) a b

/-- Python `round(a / b)` for natural `a`, `b` with `b ≠ 0`: round half to
even. -/
def roundHalfEven (a b : Nat) : Nat :=
  let q := a / b
  let r := a % b
  if 2 * r < b then q
  else if b < 2 * r then q + 1
  else if q % 2 = 0 then q else q + 1

/-- `fuzz.ratio` as thefuzz computes it: the indel similarity
`100 * (1 - dist / (m + n))` with `dist = m + n - 2 * lcs`, i.e.
`200 * lcs / (m + n)`, rounded to an integer; two empty strings score
100. -/
def fuzzRatio (a b : List Char) : Nat :=
  if a.length + b.length = 0 then 100
  else roundHalfEven (200 * lcs a b) (a.length + b.length)

/-- Ten times the weighted score computed by the loop body of
`find_similar_customers`: normalize all six fields, score name/street/city
with `fuzz.ratio` (street and city only when both sides are non-empty), and
combine with weights 0.5/0.3/0.2, degrading to 0.7/0.3 without a city and to
the bare name score without a street. The branch deciding which weights apply
looks only at the query's fields. The float weights are modelled exactly as
the decimals 5/10, 3/10, 2/10, 7/10, with everything scaled by 10 to stay in
`Nat`. -/
def similarityScore10 (qname qstreet qcity ename estreet ecity : String) : Nat :=
  let nn := normalizeList qname.data
  let ns := normalizeList qstreet.data
  let nc := normalizeList qcity.data
  let en := normalizeList ename.data
  let es := normalizeList estreet.data
  let ec := normalizeList ecity.data
  let nameScore := fuzzRatio nn en
  let streetScore := if ns ≠ [] ∧ es ≠ [] then fuzzRatio ns es else 0
  let cityScore := if nc ≠ [] ∧ ec ≠ [] then fuzzRatio nc ec else 0
  if ns ≠ [] ∧ nc ≠ [] then nameScore * 5 + streetScore * 3 + cityScore * 2
  else if ns ≠ [] then nameScore * 7 + streetScore * 3
  else nameScore * 10

/-- The guard `overall_score >= similarity_threshold` of
`find_similar_customers`, in the scaled-by-10 model. -/
def meetsThreshold (threshold : Nat)
    (qname qstreet qcity ename estreet ecity : String) : Prop :=
  10 * threshold ≤ similarityScore10 qname qstreet qcity ename estreet ecity

instance (threshold : Nat) (a b c d e f : String) :
    Decidable (meetsThreshold threshold a b c d e f) := by
  unfold meetsThreshold; infer_instance

theorem lcsF_comm (fuel : Nat) : ∀ a b, lcsF fuel a b = lcsF fuel b a := by
  induction fuel with
  | zero => intro a b; rfl
  | succ f ih =>
    intro a b
    cases a with
    | nil => cases b <;> rfl
    | cons x xs =>
      cases b with
      | nil => rfl
      | cons y ys =>
        by_cases h : x = y
        · subst h
          simp [lcsF, ih]
        · have h' : ¬ y = x := fun hyx => h hyx.symm
          simp only [lcsF, if_neg h, if_neg h']
          rw [ih xs (y :: ys), ih (x :: xs) ys, Nat.max_comm]

theorem lcs_comm (a b : List Char) : lcs a b = lcs b a := by
  unfold lcs
  rw [Nat.add_comm, lcsF_comm]

theorem fuzzRatio_comm (a b : List Char) : fuzzRatio a b = fuzzRatio b a := by
  unfold fuzzRatio
  rw [Nat.add_comm b.length, lcs_comm b a]

/-! ### SQLite TEXT ordering

SQLite compares TEXT with memcmp on UTF-8 bytes; on UTF-8 this coincides with
lexicographic codepoint order, modelled here on `List Char`. -/

/-- Lexicographic comparison of character lists by codepoint. -/
def listLtb : List Char → List Char → Bool
  | [], [] => false
  | [], _ :: _ => true
  | _ :: _, [] => false
  | a :: as, b :: bs =>
    if a.toNat < b.toNat then true
    else if b.toNat < a.toNat then false
    else listLtb as bs

/-- SQLite `<` on TEXT values. -/
def strLtb (a b : String) : Bool := listLtb a.data b.data

theorem listLtb_irrefl (a : List Char) : listLtb a a = false := by
  induction a with
  | nil => rfl
  | cons c cs ih => simp [listLtb, ih]

theorem listLtb_trans : ∀ a b c : List Char,
    listLtb a b = true → listLtb b c = true → listLtb a c = true := by
  intro a
  induction a with
  | nil =>
    intro b c hab hbc
    cases b with
    | nil => exact absurd hab (by simp [listLtb])
    | cons y ys =>
      cases c with
      | nil => exact absurd hbc (by simp [listLtb])
      | cons z zs => simp [listLtb]
  | cons x xs ih =>
    intro b c hab hbc
    cases b with
    | nil => exact absurd hab (by simp [listLtb])
    | cons y ys =>
      cases c with
      | nil => exact absurd hbc (by simp [listLtb])
      | cons z zs =>
        simp only [listLtb] at hab hbc ⊢
        by_cases hxy : x.toNat < y.toNat
        · by_cases hyz : y.toNat < z.toNat
          · have : x.toNat < z.toNat := Nat.lt_trans hxy hyz
            simp [this]
          · simp only [hyz, if_false] at hbc
            by_cases hzy : z.toNat < y.toNat
            · simp [hzy] at hbc
            · have hyz' : y.toNat = z.toNat := Nat.le_antisymm (Nat.le_of_not_lt hzy) (Nat.le_of_not_lt hyz)
              have : x.toNat < z.toNat := hyz' ▸ hxy
              simp [this]
        · simp only [hxy, if_false] at hab
          by_cases hyx : y.toNat < x.toNat
          · simp [hyx] at hab
          · simp only [hyx, if_false] at hab
            have hxy' : x.toNat = y.toNat := Nat.le_antisymm (Nat.le_of_not_lt hyx) (Nat.le_of_not_lt hxy)
            by_cases hyz : y.toNat < z.toNat
            · have : x.toNat < z.toNat := hxy' ▸ hyz
              simp [this]
            · simp only [hyz, if_false] at hbc
              by_cases hzy : z.toNat < y.toNat
              · simp [hzy] at hbc
              · simp only [hzy, if_false] at hbc
                have hyz' : y.toNat = z.toNat := Nat.le_antisymm (Nat.le_of_not_lt hzy) (Nat.le_of_not_lt hyz)
                have h1 : ¬ x.toNat < z.toNat := by omega
                have h2 : ¬ z.toNat < x.toNat := by omega
                simp only [h1, h2, if_false]
                exact ih ys zs hab hbc

theorem listLtb_eq_of_not_lt : ∀ a b : List Char,
    listLtb a b = false → listLtb b a = false → a = b := by
  intro a
  induction a with
  | nil =>
    intro b hab _
    cases b with
    | nil => rfl
    | cons y ys => exact absurd hab (by simp [listLtb])
  | cons x xs ih =>
    intro b hab hba
    cases b with
    | nil => exact absurd hba (by simp [listLtb])
    | cons y ys =>
      simp only [listLtb] at hab hba
      by_cases hxy : x.toNat < y.toNat
      · simp [hxy] at hab
      · by_cases hyx : y.toNat < x.toNat
        · simp [hxy, hyx] at hab
          simp [hyx] at hba
        · simp only [hxy, hyx, if_false] at hab hba
          have hx : x = y := Char.eq_of_val_eq (by
            apply UInt32.eq_of_toBitVec_eq
            apply BitVec.eq_of_toNat_eq
            exact Nat.le_antisymm (Nat.le_of_not_lt hyx) (Nat.le_of_not_lt hxy))
          rw [hx, ih ys hab hba]

theorem strLtb_irrefl (a : String) : strLtb a a = false := listLtb_irrefl a.data

theorem strLtb_trans {a b c : String} (h1 : strLtb a b = true) (h2 : strLtb b c = true) :
    strLtb a c = true := listLtb_trans a.data b.data c.data h1 h2

theorem strLtb_antisymm {a b : String} (h1 : strLtb a b = false) (h2 : strLtb b a = false) :
    a = b := by
  have h := listLtb_eq_of_not_lt a.data b.data h1 h2
  cases a
  cases b
  exact congrArg String.mk (by simpa using h)

/-- One step of the SQL `MAX` aggregate over TEXT values. -/
def maxStep (acc : Option String) (d : String) : Option String :=
  match acc with
  | none => some d
  | some m => if strLtb m d then some d else some m

/-- SQL `MAX` of a list of TEXT values (`NULL`, i.e. `none`, on an empty
list). -/
def maxStr? (l : List String) : Option String := l.foldl maxStep none

theorem maxStr?_fold_some (l : List String) : ∀ m : String,
    ∃ r, l.foldl maxStep (some m) = some r ∧ (r = m ∨ r ∈ l) ∧
      strLtb r m = false ∧ ∀ a ∈ l, strLtb r a = false := by
  induction l with
  | nil =>
    intro m
    exact ⟨m, rfl, Or.inl rfl, strLtb_irrefl m, by simp⟩
  | cons d ds ih =>
    intro m
    by_cases h : strLtb m d = true
    · obtain ⟨r, hr, hmem, hacc, hall⟩ := ih d
      refine ⟨r, ?_, ?_, ?_, ?_⟩
      · simpa [maxStep, h] using hr
      · rcases hmem with rfl | hmem
        · exact Or.inr (List.mem_cons_self _ _)
        · exact Or.inr (List.mem_cons_of_mem _ hmem)
      · cases hrm : strLtb r m with
        | false => rfl
        | true => exact absurd (strLtb_trans hrm h) (by simp [hacc])
      · intro a ha
        rcases List.mem_cons.mp ha with rfl | ha
        · exact hacc
        · exact hall a ha
    · have h' : strLtb m d = false := by
        cases hmd : strLtb m d with
        | false => rfl
        | true => exact absurd hmd h
      obtain ⟨r, hr, hmem, hacc, hall⟩ := ih m
      refine ⟨r, ?_, ?_, hacc, ?_⟩
      · simpa [maxStep, h'] using hr
      · rcases hmem with rfl | hmem
        · exact Or.inl rfl
        · exact Or.inr (List.mem_cons_of_mem _ hmem)
      · intro a ha
        rcases List.mem_cons.mp ha with rfl | ha
        · cases hra : strLtb r a with
          | false => rfl
          | true =>
            cases hdm : strLtb a m with
            | true =>
              have : strLtb r m = true := strLtb_trans hra hdm
              simp [this] at hacc
            | false =>
              have hdm' : a = m := strLtb_antisymm hdm h'
              rw [hdm'] at hra
              simp [hra] at hacc
        · exact hall a ha

theorem maxStr?_spec {l : List String} {m : String} (h : maxStr? l = some m) :
    m ∈ l ∧ ∀ a ∈ l, strLtb m a = false := by
  cases l with
  | nil => simp [maxStr?] at h
  | cons d ds =>
    obtain ⟨r, hr, hmem, hacc, hall⟩ := maxStr?_fold_some ds d
    have : maxStr? (d :: ds) = some r := by
      simpa [maxStr?, List.foldl_cons, maxStep] using hr
    rw [this] at h
    cases h
    constructor
    · rcases hmem with rfl | hmem
      · exact List.mem_cons_self _ _
      · exact List.mem_cons_of_mem _ hmem
    · intro a ha
      rcases List.mem_cons.mp ha with rfl | ha
      · exact hacc
      · exact hall a ha

theorem maxStr?_isSome {l : List String} (h : l ≠ []) : ∃ m, maxStr? l = some m := by
  cases l with
  | nil => exact absurd rfl h
  | cons d ds =>
    obtain ⟨r, hr, _, _, _⟩ := maxStr?_fold_some ds d
    exact ⟨r, by simpa [maxStr?, List.foldl_cons, maxStep] using hr⟩

theorem maxStr?_eq_some_of {l : List String} {m : String} (hmem : m ∈ l)
    (hmax : ∀ a ∈ l, strLtb m a = false) : maxStr? l = some m := by
  have hne : l ≠ [] := by rintro rfl; simp at hmem
  obtain ⟨r, hr⟩ := maxStr?_isSome hne
  obtain ⟨hrmem, hrmax⟩ := maxStr?_spec hr
  have : r = m := strLtb_antisymm (hrmax m hmem) (hmax r hrmem)
  rw [hr, this]

/-! ### Data model

Row structures mirror the SQLite schema of `init_db` (invoice_tracker.py /
web_app.py). Timestamps and free-text columns that no claim depends on are
omitted; `AUTOINCREMENT` ids are threaded through the state explicitly.
History-event metadata payloads are opaque to every claim and are not
modelled. -/

structure SnapshotRow where
  id : Nat
  snapshot_date : String
  folder_name : String
  import_complete : Bool
deriving DecidableEq, Repr

structure InvoiceRow where
  id : Nat
  invoice_number : Option String
  customer_name : String
  customer_address : String
  customer_street : Option String
  customer_city : Option String
  invoice_date : String
  amount_cents : Int
deriving DecidableEq, Repr

structure LinkRow where
  invoice_id : Nat
  snapshot_id : Nat
  file_path : String
deriving DecidableEq, Repr

structure HistoryRow where
  invoice_id : Nat
  event_type : String
deriving DecidableEq, Repr

structure ReminderRow where
  invoice_id : Nat
  reminder_level : Int
  letterexpress_status : String
  pdf_path : Option String
deriving DecidableEq, Repr

structure CustomerDetailRow where
  customer_name : String
  salutation : Option String
  custom_name : Option String
  custom_street : Option String
  custom_city : Option String
deriving DecidableEq, Repr

structure PendingImportRow where
  file_path : String
  invoice_number : Option String
  invoice_date : String
  customer_name : String
  customer_street : Option String
  customer_city : Option String
  amount_cents : Int
  snapshot_date : String
  snapshot_id : Nat
deriving DecidableEq, Repr

/-- The database state. -/
structure DB where
  snapshots : List SnapshotRow
  invoices : List InvoiceRow
  invoice_snapshots : List LinkRow
  invoice_history : List HistoryRow
  reminders : List ReminderRow
  customer_details : List CustomerDetailRow
  pending_imports : List PendingImportRow
  nextSnapshotId : Nat
  nextInvoiceId : Nat
deriving DecidableEq, Repr

/-- `SELECT MAX(snapshot_date) FROM snapshots`. -/
def DB.latestSnapshotDate (db : DB) : Option String :=
  maxStr? (db.snapshots.map (fun s => s.snapshot_date))

/-- Is invoice `invId` linked to snapshot `snapId`? -/
def DB.linked (db : DB) (invId snapId : Nat) : Bool :=
  db.invoice_snapshots.any (fun l => l.invoice_id = invId && l.snapshot_id = snapId)

/-- Number of history events of type `ty` for invoice `invId`. -/
def DB.eventCount (db : DB) (invId : Nat) (ty : String) : Nat :=
  (db.invoice_history.filter (fun e => e.invoice_id = invId && e.event_type = ty)).length

/-- The `invoice_status` CTE of the dashboard query (web_app.py): an invoice
is `"open"` iff it has a link to some snapshot whose `snapshot_date` equals
`(SELECT MAX(snapshot_date) FROM snapshots)`, else `"paid"`. -/
def DB.dashboardStatus (db : DB) (invId : Nat) : String :=
  if db.invoice_snapshots.any (fun l =>
      l.invoice_id = invId && db.snapshots.any (fun s =>
        s.id = l.snapshot_id && db.latestSnapshotDate = some s.snapshot_date))
  then "open" else "paid"

/-- The `snapshot_date`s joined to invoice `invId` through
`invoice_snapshots`, in link order (the inner join of the bulk-reminder
status check). -/
def DB.linkedDates (db : DB) (invId : Nat) : List String :=
  (db.invoice_snapshots.filter (fun l => l.invoice_id = invId)).filterMap
    (fun l => (db.snapshots.find? (fun s => s.id = l.snapshot_id)).map
      (fun s => s.snapshot_date))

/-- The safety check of `create_bulk_reminders` (web_app.py): joins the
invoice to its snapshots, takes `MAX(s.snapshot_date)` and compares it with
the `latest` parameter; an invoice with no row (unknown id or no links)
yields `none`. -/
def DB.bulkStatusCheck (db : DB) (latest : String) (invId : Nat) : Option String :=
  if db.invoices.any (fun i => i.id = invId) then
    match maxStr? (db.linkedDates invId) with
    | none => none
    | some m => some (if m = latest then "open" else "paid")
  else none

/-- The dates of all snapshots the invoice is linked to (the spec's "linked
periods" of an invoice). -/
def DB.presentDates (db : DB) (invId : Nat) : List String :=
  (db.snapshots.filter (fun s => db.linked invId s.id)).map (fun s => s.snapshot_date)

theorem mem_presentDates_iff (db : DB) (invId : Nat) (d : String) :
    d ∈ db.presentDates invId ↔
      ∃ s ∈ db.snapshots, db.linked invId s.id = true ∧ s.snapshot_date = d := by
  unfold DB.presentDates
  simp only [List.mem_map, List.mem_filter]
  constructor
  · rintro ⟨s, ⟨hs, hl⟩, rfl⟩
    exact ⟨s, hs, hl, rfl⟩
  · rintro ⟨s, hs, hl, rfl⟩
    exact ⟨s, ⟨hs, hl⟩, rfl⟩

theorem presentDates_subset_all (db : DB) (invId : Nat) {d : String}
    (h : d ∈ db.presentDates invId) :
    d ∈ db.snapshots.map (fun s => s.snapshot_date) := by
  obtain ⟨s, hs, _, rfl⟩ := (mem_presentDates_iff db invId d).mp h
  exact List.mem_map.mpr ⟨s, hs, rfl⟩

theorem dashboardStatus_open_iff (db : DB) (invId : Nat) :
    db.dashboardStatus invId = "open" ↔
      ∃ s ∈ db.snapshots, db.linked invId s.id = true ∧
        db.latestSnapshotDate = some s.snapshot_date := by
  unfold DB.dashboardStatus
  constructor
  · intro h
    by_cases hc : db.invoice_snapshots.any (fun l =>
        l.invoice_id = invId && db.snapshots.any (fun s =>
          s.id = l.snapshot_id && db.latestSnapshotDate = some s.snapshot_date)) = true
    · obtain ⟨l, hl, hcond⟩ := List.any_eq_true.mp hc
      rw [Bool.and_eq_true] at hcond
      obtain ⟨hlinv, hrest⟩ := hcond
      obtain ⟨s, hs, hscond⟩ := List.any_eq_true.mp hrest
      rw [Bool.and_eq_true] at hscond
      obtain ⟨hsid, hdate⟩ := hscond
      refine ⟨s, hs, ?_, of_decide_eq_true hdate⟩
      apply List.any_eq_true.mpr
      exact ⟨l, hl, by
        rw [Bool.and_eq_true]
        exact ⟨hlinv, by rw [decide_eq_true_eq, of_decide_eq_true hsid]⟩⟩
    · rw [if_neg (by simpa using hc)] at h
      exact absurd h (by decide)
  · rintro ⟨s, hs, hl, hdate⟩
    obtain ⟨l, hlmem, hlcond⟩ := List.any_eq_true.mp hl
    rw [Bool.and_eq_true] at hlcond
    obtain ⟨hlinv, hlsnap⟩ := hlcond
    rw [if_pos]
    apply List.any_eq_true.mpr
    refine ⟨l, hlmem, ?_⟩
    rw [Bool.and_eq_true]
    refine ⟨hlinv, ?_⟩
    apply List.any_eq_true.mpr
    refine ⟨s, hs, ?_⟩
    rw [Bool.and_eq_true]
    constructor
    · rw [decide_eq_true_eq]
      exact (of_decide_eq_true hlsnap).symm
    · exact decide_eq_true hdate

/-- C1: for every database state and invoice, the derived dashboard status is
`"open"` exactly when the invoice is linked to a snapshot carrying the
globally maximal `snapshot_date`; equivalently, exactly when the maximum of
the invoice's linked snapshot dates equals the global maximum date (and the
latter exists); and the status is always one of `"open"`/`"paid"`. The status
is a function of the current links — it is computed, not stored. -/
theorem C1_derived_status (db : DB) (invId : Nat) :
    (db.dashboardStatus invId = "open" ↔
      ∃ s ∈ db.snapshots, db.linked invId s.id = true ∧
        db.latestSnapshotDate = some s.snapshot_date) ∧
    (db.dashboardStatus invId = "open" ↔
      (db.latestSnapshotDate ≠ none ∧
        maxStr? (db.presentDates invId) = db.latestSnapshotDate)) ∧
    (db.dashboardStatus invId = "open" ∨ db.dashboardStatus invId = "paid") := by
  refine ⟨dashboardStatus_open_iff db invId, ?_, ?_⟩
  · rw [dashboardStatus_open_iff db invId]
    constructor
    · rintro ⟨s, hs, hl, hdate⟩
      refine ⟨by rw [hdate]; simp, ?_⟩
      rw [hdate]
      apply maxStr?_eq_some_of
      · exact (mem_presentDates_iff db invId _).mpr ⟨s, hs, hl, rfl⟩
      · intro a ha
        exact (maxStr?_spec hdate).2 a (presentDates_subset_all db invId ha)
    · rintro ⟨hne, hmax⟩
      obtain ⟨L, hL⟩ := Option.ne_none_iff_exists'.mp hne
      rw [hL] at hmax
      obtain ⟨hmem, _⟩ := maxStr?_spec hmax
      obtain ⟨s, hs, hl, hd⟩ := (mem_presentDates_iff db invId L).mp hmem
      exact ⟨s, hs, hl, by rw [hd]; exact hL⟩
  · unfold DB.dashboardStatus
    by_cases h : db.invoice_snapshots.any (fun l =>
        l.invoice_id = invId && db.snapshots.any (fun s =>
          s.id = l.snapshot_id && db.latestSnapshotDate = some s.snapshot_date)) = true
    · left; rw [if_pos h]
    · right; rw [if_neg (by simpa using h)]

/-! ### detect_and_log_payments (invoice_tracker.py) -/

/-- `SELECT id FROM snapshots WHERE snapshot_date = ? ORDER BY id DESC
LIMIT 1`: the row with the greatest id among those matching. -/
def pickMaxId (l : List SnapshotRow) : Option SnapshotRow :=
  l.foldl (fun acc s =>
    match acc with
    | none => some s
    | some m => if m.id < s.id then some s else some m) none

/-- `SELECT id, snapshot_date FROM snapshots WHERE snapshot_date < ? ORDER BY
snapshot_date DESC LIMIT 1`: the row with the greatest date among those
matching. -/
def pickMaxDate (l : List SnapshotRow) : Option SnapshotRow :=
  l.foldl (fun acc s =>
    match acc with
    | none => some s
    | some m => if strLtb m.snapshot_date s.snapshot_date then some s else some m) none

theorem pickMaxId_fold_mem (l : List SnapshotRow) : ∀ m : SnapshotRow,
    ∃ r, l.foldl (fun acc s =>
      match acc with
      | none => some s
      | some m => if m.id < s.id then some s else some m) (some m) = some r ∧
      (r = m ∨ r ∈ l) := by
  induction l with
  | nil => intro m; exact ⟨m, rfl, Or.inl rfl⟩
  | cons d ds ih =>
    intro m
    by_cases h : m.id < d.id
    · obtain ⟨r, hr, hmem⟩ := ih d
      refine ⟨r, by simpa [h] using hr, ?_⟩
      rcases hmem with rfl | hmem
      · exact Or.inr (List.mem_cons_self _ _)
      · exact Or.inr (List.mem_cons_of_mem _ hmem)
    · obtain ⟨r, hr, hmem⟩ := ih m
      refine ⟨r, by simpa [h] using hr, ?_⟩
      rcases hmem with rfl | hmem
      · exact Or.inl rfl
      · exact Or.inr (List.mem_cons_of_mem _ hmem)

theorem pickMaxId_mem {l : List SnapshotRow} {r : SnapshotRow}
    (h : pickMaxId l = some r) : r ∈ l := by
  cases l with
  | nil => simp [pickMaxId] at h
  | cons d ds =>
    obtain ⟨r', hr', hmem⟩ := pickMaxId_fold_mem ds d
    have : pickMaxId (d :: ds) = some r' := by simpa [pickMaxId] using hr'
    rw [this] at h
    cases h
    rcases hmem with rfl | hmem
    · exact List.mem_cons_self _ _
    · exact List.mem_cons_of_mem _ hmem

theorem pickMaxId_isSome {l : List SnapshotRow} (h : l ≠ []) :
    ∃ r, pickMaxId l = some r := by
  cases l with
  | nil => exact absurd rfl h
  | cons d ds =>
    obtain ⟨r, hr, _⟩ := pickMaxId_fold_mem ds d
    exact ⟨r, by simpa [pickMaxId] using hr⟩

theorem pickMaxDate_fold_some (l : List SnapshotRow) : ∀ m : SnapshotRow,
    ∃ r, l.foldl (fun acc s =>
      match acc with
      | none => some s
      | some m => if strLtb m.snapshot_date s.snapshot_date then some s else some m)
        (some m) = some r ∧
      (r = m ∨ r ∈ l) ∧ strLtb r.snapshot_date m.snapshot_date = false ∧
      ∀ a ∈ l, strLtb r.snapshot_date a.snapshot_date = false := by
  induction l with
  | nil =>
    intro m
    exact ⟨m, rfl, Or.inl rfl, strLtb_irrefl _, by simp⟩
  | cons d ds ih =>
    intro m
    by_cases h : strLtb m.snapshot_date d.snapshot_date = true
    · obtain ⟨r, hr, hmem, hacc, hall⟩ := ih d
      refine ⟨r, by simpa [h] using hr, ?_, ?_, ?_⟩
      · rcases hmem with rfl | hmem
        · exact Or.inr (List.mem_cons_self _ _)
        · exact Or.inr (List.mem_cons_of_mem _ hmem)
      · cases hrm : strLtb r.snapshot_date m.snapshot_date with
        | false => rfl
        | true => exact absurd (strLtb_trans hrm h) (by simp [hacc])
      · intro a ha
        rcases List.mem_cons.mp ha with rfl | ha
        · exact hacc
        · exact hall a ha
    · have h' : strLtb m.snapshot_date d.snapshot_date = false := by
        cases hmd : strLtb m.snapshot_date d.snapshot_date with
        | false => rfl
        | true => exact absurd hmd h
      obtain ⟨r, hr, hmem, hacc, hall⟩ := ih m
      refine ⟨r, by simpa [h'] using hr, ?_, hacc, ?_⟩
      · rcases hmem with rfl | hmem
        · exact Or.inl rfl
        · exact Or.inr (List.mem_cons_of_mem _ hmem)
      · intro a ha
        rcases List.mem_cons.mp ha with rfl | ha
        · cases hra : strLtb r.snapshot_date a.snapshot_date with
          | false => rfl
          | true =>
            cases hdm : strLtb a.snapshot_date m.snapshot_date with
            | true =>
              have : strLtb r.snapshot_date m.snapshot_date = true := strLtb_trans hra hdm
              simp [this] at hacc
            | false =>
              have hdm' : a.snapshot_date = m.snapshot_date := strLtb_antisymm hdm h'
              rw [hdm'] at hra
              simp [hra] at hacc
        · exact hall a ha

theorem pickMaxDate_spec {l : List SnapshotRow} {r : SnapshotRow}
    (h : pickMaxDate l = some r) :
    r ∈ l ∧ ∀ a ∈ l, strLtb r.snapshot_date a.snapshot_date = false := by
  cases l with
  | nil => simp [pickMaxDate] at h
  | cons d ds =>
    obtain ⟨r', hr', hmem, hacc, hall⟩ := pickMaxDate_fold_some ds d
    have : pickMaxDate (d :: ds) = some r' := by simpa [pickMaxDate] using hr'
    rw [this] at h
    cases h
    constructor
    · rcases hmem with rfl | hmem
      · exact List.mem_cons_self _ _
      · exact List.mem_cons_of_mem _ hmem
    · intro a ha
      rcases List.mem_cons.mp ha with rfl | ha
      · exact hacc
      · exact hall a ha

theorem pickMaxDate_isSome {l : List SnapshotRow} (h : l ≠ []) :
    ∃ r, pickMaxDate l = some r := by
  cases l with
  | nil => exact absurd rfl h
  | cons d ds =>
    obtain ⟨r, hr, _, _, _⟩ := pickMaxDate_fold_some ds d
    exact ⟨r, by simpa [pickMaxDate] using hr⟩

/-- The selection predicate of the `paid_invoices` query in
`detect_and_log_payments`: linked to the previous snapshot, not linked to the
current snapshot, and no PAYMENT_RECEIVED event logged yet. -/
def paidPred (db : DB) (prevId curId : Nat) (i : InvoiceRow) : Bool :=
  db.linked i.id prevId && !(db.linked i.id curId) &&
  !(db.invoice_history.any (fun e =>
    e.invoice_id = i.id && e.event_type = "PAYMENT_RECEIVED"))

/-- `detect_and_log_payments` from invoice_tracker.py: find the snapshot of
`cur` (greatest id among matches), find the immediately preceding snapshot
(greatest date strictly below `cur`), collect the invoices linked to the
previous but not the current snapshot that have no PAYMENT_RECEIVED event
yet, append one PAYMENT_RECEIVED event for each, and return how many. -/
def detect_and_log_payments (db : DB) (cur : String) : Nat × DB :=
  match pickMaxId (db.snapshots.filter (fun s => s.snapshot_date = cur)) with
  | none => (0, db)
  | some curSnap =>
    match pickMaxDate (db.snapshots.filter (fun s => strLtb s.snapshot_date cur)) with
    | none => (0, db)
    | some prevSnap =>
      let paid := db.invoices.filter (paidPred db prevSnap.id curSnap.id)
      (paid.length,
        { db with invoice_history :=
            db.invoice_history ++ paid.map (fun i =>
              { invoice_id := i.id, event_type := "PAYMENT_RECEIVED" }) })

/-! ### Counting helpers for per-invoice events -/

theorem count_filter_id_of_not_mem {l : List InvoiceRow} {inv : Nat}
    (h : inv ∉ l.map (fun i => i.id)) (p : InvoiceRow → Bool) :
    (l.filter (fun j => decide (j.id = inv) && p j)).length = 0 := by
  rw [List.length_eq_zero, List.filter_eq_nil_iff]
  intro j hj
  simp only [Bool.and_eq_true, decide_eq_true_eq, not_and]
  intro hid
  exact absurd (List.mem_map.mpr ⟨j, hj, hid⟩) h

theorem count_filter_id_of_nodup {l : List InvoiceRow}
    (h : (l.map (fun i => i.id)).Nodup) (p : InvoiceRow → Bool)
    {i : InvoiceRow} (hi : i ∈ l) :
    (l.filter (fun j => decide (j.id = i.id) && p j)).length =
      if p i = true then 1 else 0 := by
  induction l with
  | nil => simp at hi
  | cons x xs ih =>
    rw [List.map_cons, List.nodup_cons] at h
    obtain ⟨hx, hxs⟩ := h
    rcases List.mem_cons.mp hi with rfl | hi
    · have htail : (xs.filter (fun j => decide (j.id = i.id) && p j)).length = 0 :=
        count_filter_id_of_not_mem hx p
      by_cases hp : p i = true
      · rw [List.filter_cons]
        simp [hp, htail]
      · rw [List.filter_cons]
        have hcond : (decide (i.id = i.id) && p i) = false := by
          simp [Bool.eq_false_iff, hp]
        rw [hcond]
        simp [htail, hp]
    · have hne : ¬ (x.id = i.id) := by
        intro hxi
        exact hx (hxi ▸ List.mem_map.mpr ⟨i, hi, rfl⟩)
      rw [List.filter_cons]
      have hcond : (decide (x.id = i.id) && p x) = false := by simp [hne]
      rw [hcond]
      simpa using ih hxs hi

theorem count_filter_id_le_one {l : List InvoiceRow}
    (h : (l.map (fun i => i.id)).Nodup) (p : InvoiceRow → Bool) (inv : Nat) :
    (l.filter (fun j => decide (j.id = inv) && p j)).length ≤ 1 := by
  by_cases hmem : inv ∈ l.map (fun i => i.id)
  · obtain ⟨i, hi, rfl⟩ := List.mem_map.mp hmem
    rw [count_filter_id_of_nodup h p hi]
    split <;> omega
  · rw [count_filter_id_of_not_mem hmem p]
    omega

theorem eventCount_update (db : DB) (new : List HistoryRow) (inv : Nat) (ty : String) :
    ({ db with invoice_history := db.invoice_history ++ new } : DB).eventCount inv ty =
      db.eventCount inv ty +
        (new.filter (fun e => e.invoice_id = inv && e.event_type = ty)).length := by
  unfold DB.eventCount
  simp [List.filter_append]

theorem eventCount_zero_iff (db : DB) (inv : Nat) (ty : String) :
    db.eventCount inv ty = 0 ↔
      db.invoice_history.any (fun e => e.invoice_id = inv && e.event_type = ty) = false := by
  unfold DB.eventCount
  rw [List.length_eq_zero, List.filter_eq_nil_iff, List.any_eq_false]

/-- The claim-side qualification: linked to the predecessor snapshot, not
linked to the current one, no PAYMENT_RECEIVED event yet. -/
def qualifiesPayment (db : DB) (prevId curId : Nat) (i : InvoiceRow) : Prop :=
  db.linked i.id prevId = true ∧ db.linked i.id curId = false ∧
  db.eventCount i.id "PAYMENT_RECEIVED" = 0

instance (db : DB) (prevId curId : Nat) (i : InvoiceRow) :
    Decidable (qualifiesPayment db prevId curId i) := by
  unfold qualifiesPayment; infer_instance

theorem paidPred_iff (db : DB) (prevId curId : Nat) (i : InvoiceRow) :
    paidPred db prevId curId i = true ↔ qualifiesPayment db prevId curId i := by
  unfold paidPred qualifiesPayment
  rw [eventCount_zero_iff]
  simp [Bool.and_eq_true, Bool.not_eq_true', and_assoc]

theorem snapshot_row_eq_of_date {db : DB}
    (hdates : (db.snapshots.map (fun s => s.snapshot_date)).Nodup)
    {a b : SnapshotRow} (ha : a ∈ db.snapshots) (hb : b ∈ db.snapshots)
    (h : a.snapshot_date = b.snapshot_date) : a = b :=
  List.inj_on_of_nodup_map hdates ha hb h

theorem detect_picks {db : DB} {cur : String} {curS prevS : SnapshotRow}
    (hdates : (db.snapshots.map (fun s => s.snapshot_date)).Nodup)
    (hcm : curS ∈ db.snapshots) (hcd : curS.snapshot_date = cur)
    (hpm : prevS ∈ db.snapshots) (hpl : strLtb prevS.snapshot_date cur = true)
    (hpmax : ∀ s ∈ db.snapshots, strLtb s.snapshot_date cur = true →
      strLtb prevS.snapshot_date s.snapshot_date = false) :
    detect_and_log_payments db cur =
      ((db.invoices.filter (paidPred db prevS.id curS.id)).length,
       { db with invoice_history :=
          (db.invoice_history ++
            (db.invoices.filter (paidPred db prevS.id curS.id)).map
              (fun i => { invoice_id := i.id, event_type := "PAYMENT_RECEIVED" })) }) := by
  have hcurmem : curS ∈ db.snapshots.filter (fun s => s.snapshot_date = cur) :=
    List.mem_filter.mpr ⟨hcm, by simp [hcd]⟩
  obtain ⟨r1, hr1⟩ := pickMaxId_isSome (List.ne_nil_of_mem hcurmem)
  have hr1m := pickMaxId_mem hr1
  rw [List.mem_filter] at hr1m
  have hr1d : r1.snapshot_date = cur := by simpa using hr1m.2
  have hr1eq : r1 = curS := snapshot_row_eq_of_date hdates hr1m.1 hcm (by rw [hr1d, hcd])
  have hprevmem : prevS ∈ db.snapshots.filter (fun s => strLtb s.snapshot_date cur) :=
    List.mem_filter.mpr ⟨hpm, hpl⟩
  obtain ⟨r2, hr2⟩ := pickMaxDate_isSome (List.ne_nil_of_mem hprevmem)
  obtain ⟨hr2m, hr2max⟩ := pickMaxDate_spec hr2
  have h1 : strLtb r2.snapshot_date prevS.snapshot_date = false := hr2max prevS hprevmem
  rw [List.mem_filter] at hr2m
  have h2 : strLtb prevS.snapshot_date r2.snapshot_date = false := hpmax r2 hr2m.1 hr2m.2
  have hr2eq : r2 = prevS :=
    snapshot_row_eq_of_date hdates hr2m.1 hpm (strLtb_antisymm h1 h2)
  rw [hr1eq] at hr1
  rw [hr2eq] at hr2
  unfold detect_and_log_payments
  rw [hr1, hr2]

/-- C2: `detect_and_log_payments db cur` compares `cur` against the
immediately preceding period (the greatest `snapshot_date` strictly below
`cur`). When `cur` has no snapshot, or no predecessor exists, it emits
nothing and changes nothing. Otherwise each invoice linked to the predecessor
but not to `cur` with no prior PAYMENT_RECEIVED event receives exactly one
new PAYMENT_RECEIVED event, every other invoice and event type is untouched,
the returned count is the number of events emitted, and the at-most-one
PAYMENT_RECEIVED-per-invoice property is preserved. -/
theorem C2_reconcile_payments (db : DB) (cur : String)
    (hdates : (db.snapshots.map (fun s => s.snapshot_date)).Nodup)
    (hids : (db.invoices.map (fun i => i.id)).Nodup) :
    ((∀ s ∈ db.snapshots, s.snapshot_date ≠ cur) →
        detect_and_log_payments db cur = (0, db)) ∧
    ((∀ s ∈ db.snapshots, strLtb s.snapshot_date cur = false) →
        detect_and_log_payments db cur = (0, db)) ∧
    (∀ curS ∈ db.snapshots, curS.snapshot_date = cur →
      ∀ prevS ∈ db.snapshots, strLtb prevS.snapshot_date cur = true →
        (∀ s ∈ db.snapshots, strLtb s.snapshot_date cur = true →
          strLtb prevS.snapshot_date s.snapshot_date = false) →
        ((∀ i ∈ db.invoices,
            (detect_and_log_payments db cur).2.eventCount i.id "PAYMENT_RECEIVED" =
              db.eventCount i.id "PAYMENT_RECEIVED" +
                (if qualifiesPayment db prevS.id curS.id i then 1 else 0)) ∧
          (∀ inv : Nat, inv ∉ db.invoices.map (fun i => i.id) →
            (detect_and_log_payments db cur).2.eventCount inv "PAYMENT_RECEIVED" =
              db.eventCount inv "PAYMENT_RECEIVED") ∧
          (∀ (inv : Nat) (ty : String), ty ≠ "PAYMENT_RECEIVED" →
            (detect_and_log_payments db cur).2.eventCount inv ty =
              db.eventCount inv ty) ∧
          db.invoice_history.length + (detect_and_log_payments db cur).1 =
            (detect_and_log_payments db cur).2.invoice_history.length ∧
          (detect_and_log_payments db cur).2.snapshots = db.snapshots ∧
          (detect_and_log_payments db cur).2.invoices = db.invoices ∧
          (detect_and_log_payments db cur).2.invoice_snapshots = db.invoice_snapshots ∧
          (detect_and_log_payments db cur).2.reminders = db.reminders)) ∧
    ((∀ inv : Nat, db.eventCount inv "PAYMENT_RECEIVED" ≤ 1) →
      ∀ inv : Nat,
        (detect_and_log_payments db cur).2.eventCount inv "PAYMENT_RECEIVED" ≤ 1) := by
  refine ⟨?_, ?_, ?_, ?_⟩
  · intro h
    have hfilter : db.snapshots.filter (fun s => s.snapshot_date = cur) = [] := by
      rw [List.filter_eq_nil_iff]
      intro s hs
      simpa using h s hs
    unfold detect_and_log_payments
    rw [hfilter]
    rfl
  · intro h
    unfold detect_and_log_payments
    have hfilter : db.snapshots.filter (fun s => strLtb s.snapshot_date cur) = [] := by
      rw [List.filter_eq_nil_iff]
      intro s hs
      simp [h s hs]
    rcases hpick : pickMaxId (db.snapshots.filter (fun s => s.snapshot_date = cur)) with
      _ | curSnap
    · rfl
    · rw [hfilter]
      rfl
  · intro curS hcm hcd prevS hpm hpl hpmax
    have hdet := detect_picks hdates hcm hcd hpm hpl hpmax
    have hcount : ∀ inv : Nat,
        (((db.invoices.filter (paidPred db prevS.id curS.id)).map
          (fun i => ({ invoice_id := i.id,
                       event_type := "PAYMENT_RECEIVED" } : HistoryRow))).filter
          (fun e => e.invoice_id = inv && e.event_type = "PAYMENT_RECEIVED")).length =
        (db.invoices.filter
          (fun j => decide (j.id = inv) && paidPred db prevS.id curS.id j)).length := by
      intro inv
      rw [List.filter_map, List.length_map, List.filter_filter]
      apply congrArg List.length
      apply List.filter_congr
      intro j _
      simp [Function.comp]
    refine ⟨?_, ?_, ?_, ?_, ?_, ?_, ?_, ?_⟩
    · intro i hi
      rw [hdet, eventCount_update, hcount i.id,
        count_filter_id_of_nodup hids (paidPred db prevS.id curS.id) hi]
      by_cases hq : qualifiesPayment db prevS.id curS.id i
      · rw [if_pos ((paidPred_iff db prevS.id curS.id i).mpr hq), if_pos hq]
      · rw [if_neg hq, if_neg (fun hc => hq ((paidPred_iff db prevS.id curS.id i).mp hc))]
    · intro inv hinv
      rw [hdet, eventCount_update, hcount inv, count_filter_id_of_not_mem hinv]
      omega
    · intro inv ty hty
      rw [hdet, eventCount_update]
      have : (((db.invoices.filter (paidPred db prevS.id curS.id)).map
          (fun i => ({ invoice_id := i.id,
                       event_type := "PAYMENT_RECEIVED" } : HistoryRow))).filter
          (fun e => e.invoice_id = inv && e.event_type = ty)).length = 0 := by
        rw [List.length_eq_zero, List.filter_eq_nil_iff]
        intro e he
        obtain ⟨j, _, rfl⟩ := List.mem_map.mp he
        simp [Ne.symm hty]
      rw [this]
      omega
    · rw [hdet]
      simp
    · rw [hdet]
    · rw [hdet]
    · rw [hdet]
    · rw [hdet]
  · intro hle inv
    rcases hpick : pickMaxId (db.snapshots.filter (fun s => s.snapshot_date = cur)) with
      _ | curSnap
    · have hdet0 : detect_and_log_payments db cur = (0, db) := by
        unfold detect_and_log_payments
        rw [hpick]
      rw [hdet0]
      exact hle inv
    · rcases hpick2 : pickMaxDate
          (db.snapshots.filter (fun s => strLtb s.snapshot_date cur)) with _ | prevSnap
      · have hdet0 : detect_and_log_payments db cur = (0, db) := by
          unfold detect_and_log_payments
          rw [hpick, hpick2]
        rw [hdet0]
        exact hle inv
      · have hdet : detect_and_log_payments db cur =
            ((db.invoices.filter (paidPred db prevSnap.id curSnap.id)).length,
             { db with invoice_history :=
                (db.invoice_history ++
                  (db.invoices.filter (paidPred db prevSnap.id curSnap.id)).map
                    (fun i => { invoice_id := i.id,
                                event_type := "PAYMENT_RECEIVED" })) }) := by
          unfold detect_and_log_payments
          rw [hpick, hpick2]
        have hcnt :
            (((db.invoices.filter (paidPred db prevSnap.id curSnap.id)).map
              (fun i => ({ invoice_id := i.id,
                           event_type := "PAYMENT_RECEIVED" } : HistoryRow))).filter
              (fun e => e.invoice_id = inv && e.event_type = "PAYMENT_RECEIVED")).length =
            (db.invoices.filter
              (fun j => decide (j.id = inv) && paidPred db prevSnap.id curSnap.id j)).length := by
          rw [List.filter_map, List.length_map, List.filter_filter]
          apply congrArg List.length
          apply List.filter_congr
          intro j _
          simp [Function.comp]
        rw [hdet, eventCount_update, hcnt]
        rcases Nat.eq_zero_or_pos
            ((db.invoices.filter
              (fun j => decide (j.id = inv) && paidPred db prevSnap.id curSnap.id j)).length)
          with hz | hp
        · rw [hz]
          simpa using hle inv
        · obtain ⟨j, hj⟩ := List.exists_mem_of_length_pos hp
          rw [List.mem_filter] at hj
          obtain ⟨hjmem, hjcond⟩ := hj
          rw [Bool.and_eq_true, decide_eq_true_eq] at hjcond
          obtain ⟨hjid, hjp⟩ := hjcond
          have hq := (paidPred_iff db prevSnap.id curSnap.id j).mp hjp
          have hz : db.eventCount inv "PAYMENT_RECEIVED" = 0 := hjid ▸ hq.2.2
          rw [hz]
          simpa using count_filter_id_le_one hids (paidPred db prevSnap.id curSnap.id) inv

/-- Two snapshots 2025-01 and 2025-02; one invoice, linked only to
2025-01. -/
def exDB2 : DB :=
  { snapshots := [⟨1, "2025-01", "2025-01", false⟩, ⟨2, "2025-02", "2025-02", false⟩],
    invoices := [⟨1, some "R1", "Mueller", "Weg 1, Alzey", some "Weg 1", some "Alzey",
                  "2025-01-10", 10000⟩],
    invoice_snapshots := [⟨1, 1, "2025-01/r1.pdf"⟩],
    invoice_history := [],
    reminders := [],
    customer_details := [],
    pending_imports := [],
    nextSnapshotId := 3,
    nextInvoiceId := 2 }

theorem C2_reconcile_payments_witness :
    (detect_and_log_payments exDB2 "2025-02").2.eventCount 1 "PAYMENT_RECEIVED" =
      exDB2.eventCount 1 "PAYMENT_RECEIVED" + 1 := by
  have h := ((C2_reconcile_payments exDB2 "2025-02" (by decide) (by decide)).2.2.1
    ⟨2, "2025-02", "2025-02", false⟩ (by decide) rfl
    ⟨1, "2025-01", "2025-01", false⟩ (by decide) (by decide) (by decide)).1
    ⟨1, some "R1", "Mueller", "Weg 1, Alzey", some "Weg 1", some "Alzey",
      "2025-01-10", 10000⟩ (by decide)
  rw [if_pos (by decide)] at h
  exact h

/-! ### calculate_months_open and get_recommended_reminder_level (web_app.py) -/

/-- A Python `datetime.date`-style value. -/
structure PyDate where
  year : Nat
  month : Nat
  day : Nat
deriving DecidableEq, Repr

/-- Value of a digit string. -/
def digitsToNat (l : List Char) : Nat :=
  l.foldl (fun acc c => acc * 10 + (c.toNat - 48)) 0

/-- Split a character list at every '-', keeping empty pieces (the shape of
the `%Y-%m-%d` format). -/
def splitOnDashGo : List Char → List Char → List (List Char)
  | cur, [] => [cur.reverse]
  | cur, c :: cs =>
    if c = '-' then cur.reverse :: splitOnDashGo [] cs
    else splitOnDashGo (c :: cur) cs

def splitOnDash (l : List Char) : List (List Char) := splitOnDashGo [] l

/-- The `%m` field of CPython strptime: `1[0-2]|0[1-9]|[1-9]` — one digit
with value 1-9, or two digits with value 01-12. -/
def validMonthStr (l : List Char) : Bool :=
  l.all Char.isDigit &&
  ((l.length = 1 && decide (1 ≤ digitsToNat l) && decide (digitsToNat l ≤ 9)) ||
   (l.length = 2 && decide (1 ≤ digitsToNat l) && decide (digitsToNat l ≤ 12)))

/-- The `%d` field of CPython strptime: `3[01]|[12]\d|0[1-9]|[1-9]` — one
digit with value 1-9, or two digits with value 01-31. -/
def validDayStr (l : List Char) : Bool :=
  l.all Char.isDigit &&
  ((l.length = 1 && decide (1 ≤ digitsToNat l) && decide (digitsToNat l ≤ 9)) ||
   (l.length = 2 && decide (1 ≤ digitsToNat l) && decide (digitsToNat l ≤ 31)))

def isLeapYear (y : Nat) : Bool :=
  (y % 4 = 0 && !(y % 100 = 0)) || y % 400 = 0

def daysInMonth (y m : Nat) : Nat :=
  if m = 2 then (if isLeapYear y then 29 else 28)
  else if m = 4 ∨ m = 6 ∨ m = 9 ∨ m = 11 then 30
  else 31

/-- `datetime.strptime(s, "%Y-%m-%d").date()`: the strptime regex (four
digit year, month and day fields as above, matching the whole string),
followed by the `date` constructor's calendar validation (`year ≥ 1`, day
within the month, leap years included). Any failure raises `ValueError` in
Python, modelled as `none`. -/
def parseDate (s : String) : Option PyDate :=
  match splitOnDash s.data with
  | [ys, ms, ds] =>
    if ys.length = 4 && ys.all Char.isDigit && validMonthStr ms && validDayStr ds then
      if 1 ≤ digitsToNat ys ∧
          digitsToNat ds ≤ daysInMonth (digitsToNat ys) (digitsToNat ms) then
        some ⟨digitsToNat ys, digitsToNat ms, digitsToNat ds⟩
      else none
    else none
  | _ => none

/-- `calculate_months_open` from web_app.py, with `date.today()` passed
explicitly: parse the invoice date; on any parse error return 0; otherwise
`max(0, (today.year - d.year) * 12 + (today.month - d.month))`. -/
def calculate_months_open (today : PyDate) (s : String) : Int :=
  match parseDate s with
  | none => 0
  | some d =>
      max 0 (((today.year : Int) - (d.year : Int)) * 12 +
             ((today.month : Int) - (d.month : Int)))

/-- `get_recommended_reminder_level` from web_app.py. -/
def get_recommended_reminder_level (months_open : Int) (last : Option Int) : Option Int :=
  if months_open < 3 then none
  else
    match last with
    | none => if 3 ≤ months_open then some 0 else none
    | some 0 => if 3 ≤ months_open then some 1 else none
    | some 1 => if 4 ≤ months_open then some 2 else none
    | some _ => none

theorem parseDate_month_bounds {s : String} {d : PyDate}
    (h : parseDate s = some d) : 1 ≤ d.month ∧ d.month ≤ 12 := by
  unfold parseDate at h
  split at h
  · rename_i ys ms ds _
    split at h
    · rename_i hG
      split at h
      · cases h
        dsimp only
        rw [Bool.and_eq_true, Bool.and_eq_true, Bool.and_eq_true] at hG
        obtain ⟨⟨⟨_, _⟩, hms⟩, _⟩ := hG
        unfold validMonthStr at hms
        rw [Bool.and_eq_true, Bool.or_eq_true] at hms
        rcases hms.2 with h1 | h2
        · rw [Bool.and_eq_true, Bool.and_eq_true] at h1
          have ha := of_decide_eq_true h1.1.2
          have hb := of_decide_eq_true h1.2
          exact ⟨ha, by omega⟩
        · rw [Bool.and_eq_true, Bool.and_eq_true] at h2
          exact ⟨of_decide_eq_true h2.1.2, of_decide_eq_true h2.2⟩
      · exact absurd h (by simp)
    · exact absurd h (by simp)
  · exact absurd h (by simp)

/-- C3: for a validly parsed invoice date, the recommended level computed by
the code from `calculate_months_open` (with `monthsOpen` the whole-calendar-
month difference `(today.year - d.year) * 12 + (today.month - d.month)`,
ignoring the day of month) follows the escalation table: below 3 months no
recommendation regardless of history; at ≥ 3 months level 0 when nothing was
sent and level 1 after level 0; at ≥ 4 months level 2 after level 1; and no
recommendation ever after level 2. -/
theorem C3_escalation_table (today : PyDate) (s : String) (d : PyDate)
    (hparse : parseDate s = some d) :
    ((((today.year : Int) - (d.year : Int)) * 12 +
        ((today.month : Int) - (d.month : Int)) < 3 →
      ∀ last, get_recommended_reminder_level (calculate_months_open today s) last = none) ∧
     (3 ≤ ((today.year : Int) - (d.year : Int)) * 12 +
        ((today.month : Int) - (d.month : Int)) →
      get_recommended_reminder_level (calculate_months_open today s) none = some 0) ∧
     (3 ≤ ((today.year : Int) - (d.year : Int)) * 12 +
        ((today.month : Int) - (d.month : Int)) →
      get_recommended_reminder_level (calculate_months_open today s) (some 0) = some 1) ∧
     (4 ≤ ((today.year : Int) - (d.year : Int)) * 12 +
        ((today.month : Int) - (d.month : Int)) →
      get_recommended_reminder_level (calculate_months_open today s) (some 1) = some 2) ∧
     (∀ mo : Int, get_recommended_reminder_level mo (some 2) = none)) := by
  have hcalc : calculate_months_open today s =
      max 0 (((today.year : Int) - (d.year : Int)) * 12 +
             ((today.month : Int) - (d.month : Int))) := by
    unfold calculate_months_open
    rw [hparse]
  refine ⟨?_, ?_, ?_, ?_, ?_⟩
  · intro hm last
    unfold get_recommended_reminder_level
    rw [hcalc, if_pos (by rw [max_lt_iff]; exact ⟨by omega, hm⟩)]
  · intro hm
    unfold get_recommended_reminder_level
    rw [hcalc, max_eq_right (by omega : (0 : Int) ≤ _), if_neg (by omega), if_pos hm]
  · intro hm
    unfold get_recommended_reminder_level
    rw [hcalc, max_eq_right (by omega : (0 : Int) ≤ _), if_neg (by omega)]
    simp only []
    rw [if_pos hm]
  · intro hm
    unfold get_recommended_reminder_level
    rw [hcalc, max_eq_right (by omega : (0 : Int) ≤ _), if_neg (by omega)]
    simp only []
    rw [if_pos hm]
  · intro mo
    unfold get_recommended_reminder_level
    split
    · rfl
    · rfl

theorem C3_escalation_table_witness :
    get_recommended_reminder_level
      (calculate_months_open ⟨2025, 4, 15⟩ "2025-01-10") none = some 0 ∧
    get_recommended_reminder_level
      (calculate_months_open ⟨2025, 4, 15⟩ "2025-01-10") (some 0) = some 1 :=
  ⟨(C3_escalation_table ⟨2025, 4, 15⟩ "2025-01-10" ⟨2025, 1, 10⟩ (by decide)).2.1
      (by decide),
   (C3_escalation_table ⟨2025, 4, 15⟩ "2025-01-10" ⟨2025, 1, 10⟩ (by decide)).2.2.1
      (by decide)⟩

/-- C10: `calculate_months_open` is total and never negative; it returns 0
on any string that is not a valid `YYYY-MM-DD` date and on any invoice date
lying in a calendar month after the current one; and whenever it returns 0
the recommended reminder level is `none`, so such invoices never reach the
3-month escalation thresholds. -/
theorem C10_months_open_safe (today : PyDate) (s : String)
    (htm1 : 1 ≤ today.month) (htm2 : today.month ≤ 12) :
    0 ≤ calculate_months_open today s ∧
    (parseDate s = none → calculate_months_open today s = 0) ∧
    (∀ d : PyDate, parseDate s = some d →
      (today.year < d.year ∨ (today.year = d.year ∧ today.month < d.month)) →
      calculate_months_open today s = 0) ∧
    (calculate_months_open today s = 0 →
      ∀ last, get_recommended_reminder_level (calculate_months_open today s) last = none) := by
  refine ⟨?_, ?_, ?_, ?_⟩
  · cases h : parseDate s with
    | none =>
      have h0 : calculate_months_open today s = 0 := by
        unfold calculate_months_open
        rw [h]
      omega
    | some d =>
      have hcalc : calculate_months_open today s =
          max 0 (((today.year : Int) - (d.year : Int)) * 12 +
                 ((today.month : Int) - (d.month : Int))) := by
        unfold calculate_months_open
        rw [h]
      rw [hcalc]
      exact le_max_left 0 _
  · intro h
    unfold calculate_months_open
    rw [h]
  · intro d hd hfut
    have hmb := parseDate_month_bounds hd
    have hcalc : calculate_months_open today s =
        max 0 (((today.year : Int) - (d.year : Int)) * 12 +
               ((today.month : Int) - (d.month : Int))) := by
      unfold calculate_months_open
      rw [hd]
    have hle : ((today.year : Int) - (d.year : Int)) * 12 +
        ((today.month : Int) - (d.month : Int)) ≤ 0 := by
      rcases hfut with hy | ⟨hy, hmo⟩
      · omega
      · omega
    rw [hcalc, max_eq_left hle]
  · intro h0 last
    rw [h0]
    unfold get_recommended_reminder_level
    rw [if_pos (by omega)]

theorem C10_months_open_safe_witness :
    calculate_months_open ⟨2025, 10, 12⟩ "2025-13-01" = 0 ∧
    calculate_months_open ⟨2025, 10, 12⟩ "2026-01-01" = 0 ∧
    get_recommended_reminder_level
      (calculate_months_open ⟨2025, 10, 12⟩ "2026-01-01") (some 0) = none :=
  ⟨(C10_months_open_safe ⟨2025, 10, 12⟩ "2025-13-01" (by decide) (by decide)).2.1
      (by decide),
   (C10_months_open_safe ⟨2025, 10, 12⟩ "2026-01-01" (by decide) (by decide)).2.2.1
      ⟨2026, 1, 1⟩ (by decide) (by decide),
   (C10_months_open_safe ⟨2025, 10, 12⟩ "2026-01-01" (by decide) (by decide)).2.2.2
      ((C10_months_open_safe ⟨2025, 10, 12⟩ "2026-01-01" (by decide) (by decide)).2.2.1
        ⟨2026, 1, 1⟩ (by decide) (by decide)) (some 0)⟩

/-- C8: the street-word variants do NOT normalize to one canonical form.
Because the replacement dict is applied in insertion order and `"str"` comes
first, `"Hauptstraße"` becomes `"hauptstrasseaße"` and `"Hauptstrasse"`
becomes `"hauptstrasseasse"`, while `"Hauptstr."` becomes `"hauptstrasse"`:
three distinct results where the intended behaviour (and the dict entries
`"straße" → "strasse"`, `"str." → "strasse"`, which can never fire) calls
for one. -/
theorem C8_normalize_variants_bug :
    normalize_string "Hauptstr." = "hauptstrasse" ∧
    normalize_string "Hauptstraße" = "hauptstrasseaße" ∧
    normalize_string "Hauptstrasse" = "hauptstrasseasse" ∧
    normalize_string "Hauptstraße" ≠ normalize_string "Hauptstrasse" ∧
    normalize_string "Hauptstr." ≠ normalize_string "Hauptstraße" := by
  refine ⟨by decide, by decide, by decide, by decide, by decide⟩

/-- C7 counterexample: the weighted fuzzy score is not symmetric around the
threshold. The query ("Meier", "ab", "") against the stored triple
("Meier", "ac", "Alzey") scores 85 (weights 0.7/0.3, no city on the query
side), above the threshold 80; the reverse direction scores 65 (weights
0.5/0.3/0.2 with a zero city score), below the threshold. -/
theorem C7_symmetry_counterexample :
    meetsThreshold 80 "Meier" "ab" "" "Meier" "ac" "Alzey" ∧
    ¬ meetsThreshold 80 "Meier" "ac" "Alzey" "Meier" "ab" "" := by
  exact ⟨by decide, by decide⟩

/-- C7 amended: the score is symmetric — and hence threshold acceptance is
symmetric — whenever both triples have a street and a city that are
non-empty after normalization, because then both directions use the same
0.5/0.3/0.2 weights and `fuzz.ratio` itself is symmetric. (The weight branch
looks only at the query's fields, which is what breaks symmetry in the
mixed-presence case of the counterexample.) -/
theorem C7_symmetry_amended (threshold : Nat) (n1 s1 c1 n2 s2 c2 : String)
    (hs1 : normalizeList s1.data ≠ []) (hc1 : normalizeList c1.data ≠ [])
    (hs2 : normalizeList s2.data ≠ []) (hc2 : normalizeList c2.data ≠ []) :
    similarityScore10 n1 s1 c1 n2 s2 c2 = similarityScore10 n2 s2 c2 n1 s1 c1 ∧
    (meetsThreshold threshold n1 s1 c1 n2 s2 c2 ↔
      meetsThreshold threshold n2 s2 c2 n1 s1 c1) := by
  have hscore : similarityScore10 n1 s1 c1 n2 s2 c2 =
      similarityScore10 n2 s2 c2 n1 s1 c1 := by
    unfold similarityScore10
    simp only [ne_eq, hs1, hc1, hs2, hc2, not_false_eq_true, and_self, if_true]
    rw [fuzzRatio_comm (normalizeList n1.data) (normalizeList n2.data),
      fuzzRatio_comm (normalizeList s1.data) (normalizeList s2.data),
      fuzzRatio_comm (normalizeList c1.data) (normalizeList c2.data)]
  refine ⟨hscore, ?_⟩
  unfold meetsThreshold
  rw [hscore]

theorem C7_symmetry_amended_witness :
    similarityScore10 "ab" "cd" "ef" "ab" "cd" "eg" =
      similarityScore10 "ab" "cd" "eg" "ab" "cd" "ef" :=
  (C7_symmetry_amended 80 "ab" "cd" "ef" "ab" "cd" "eg"
    (by decide) (by decide) (by decide) (by decide)).1

/-! ### process_pdf_file (invoice_tracker.py)

The PDF parsing itself is an external concern (pdfplumber/pypdf); its output,
the `InvoiceRecord` dataclass, is the input of the embedded ingestion. The
same file deterministically parses to the same record. The AI salutation
collaborator is a parameter; `none` models both `None` and the empty
salutation (both falsy in the source). -/

structure ParsedRecord where
  file_path : String
  invoice_number : Option String
  invoice_date : String
  customer_name : String
  customer_address : String
  amount_cents : Int
  customer_street : Option String
  customer_city : Option String
deriving DecidableEq, Repr

/-- First-occurrence deduplication (`SELECT DISTINCT`). -/
def dedupFirst {α : Type} [DecidableEq α] (l : List α) : List α :=
  l.foldl (fun acc x => if x ∈ acc then acc else acc ++ [x]) []

/-- `find_similar_customers`: score every distinct stored
(name, street, city) triple against the query and keep those meeting the
threshold, each with its scaled score. The descending sort of the source
only orders the output and is not consumed by the embedded callers, which
test emptiness. -/
def find_similar_customers (db : DB) (qname qstreet qcity : String)
    (threshold : Nat) : List (String × Option String × Option String × Nat) :=
  (dedupFirst (db.invoices.map (fun i =>
      (i.customer_name, i.customer_street, i.customer_city)))).filterMap
    (fun t =>
      let score := similarityScore10 qname qstreet qcity t.1 (t.2.1.getD "") (t.2.2.getD "")
      if 10 * threshold ≤ score then some (t.1, t.2.1, t.2.2, score) else none)

/-- `get_or_create_snapshot`. -/
def get_or_create_snapshot (db : DB) (sdate folder : String) : Nat × DB :=
  match db.snapshots.find? (fun s => s.snapshot_date = sdate) with
  | some s => (s.id, db)
  | none =>
    (db.nextSnapshotId,
     { db with
        snapshots := db.snapshots ++ [⟨db.nextSnapshotId, sdate, folder, false⟩],
        nextSnapshotId := db.nextSnapshotId + 1 })

/-- `get_or_create_invoice`. The lookup is the SQL
`WHERE invoice_number = ? AND customer_name = ? AND amount_cents = ?`; with a
`NULL` number the equality is never satisfied, so a record without an
invoice number never finds an existing row. -/
def get_or_create_invoice (db : DB) (r : ParsedRecord) : Nat × DB :=
  let found : Option InvoiceRow :=
    match r.invoice_number with
    | none => none
    | some num =>
      db.invoices.find? (fun i =>
        i.invoice_number = some num && i.customer_name = r.customer_name &&
        i.amount_cents = r.amount_cents)
  match found with
  | some i => (i.id, db)
  | none =>
    (db.nextInvoiceId,
     { db with
        invoices := db.invoices ++
          [⟨db.nextInvoiceId, r.invoice_number, r.customer_name, r.customer_address,
            r.customer_street, r.customer_city, r.invoice_date, r.amount_cents⟩],
        nextInvoiceId := db.nextInvoiceId + 1 })

/-- `link_invoice_to_snapshot`: the UNIQUE(invoice_id, snapshot_id)
IntegrityError of a duplicate insert is the benign `false` branch. -/
def link_invoice_to_snapshot (db : DB) (invId snapId : Nat) (fp : String) : Bool × DB :=
  if db.invoice_snapshots.any (fun l => l.invoice_id = invId && l.snapshot_id = snapId) then
    (false, db)
  else
    (true, { db with invoice_snapshots := db.invoice_snapshots ++ [⟨invId, snapId, fp⟩] })

/-- The `INSERT ... ON CONFLICT(customer_name) DO UPDATE` of the salutation
block. -/
def upsertSalutation (db : DB) (name sal : String) : DB :=
  if db.customer_details.any (fun c => c.customer_name = name) then
    { db with customer_details := db.customer_details.map (fun c =>
        if c.customer_name = name then { c with salutation := some sal } else c) }
  else
    { db with customer_details := db.customer_details ++ [⟨name, some sal, none, none, none⟩] }

/-- The tail of `process_pdf_file` once no similar customers blocked the
import: get or create the invoice, link it to the snapshot, fill in a
missing salutation, and log IMPORT when the link is new. -/
def ingestCore (salProvider : String → Option String) (key : String)
    (r : ParsedRecord) (snapId : Nat) (db1 : DB) : Bool × DB :=
  let ires := get_or_create_invoice db1 r
  let invId := ires.1
  let db2 := ires.2
  let lres := link_invoice_to_snapshot db2 invId snapId key
  let isNew := lres.1
  let db3 := lres.2
  let needsSal :=
    match db3.customer_details.find? (fun c => c.customer_name = r.customer_name) with
    | none => true
    | some c =>
      match c.salutation with
      | none => true
      | some s => s = ""
  let db4 :=
    if needsSal then
      match salProvider r.customer_name with
      | some sal => upsertSalutation db3 r.customer_name sal
      | none => db3
    else db3
  let db5 :=
    if isNew then
      { db4 with invoice_history := db4.invoice_history ++ [⟨invId, "IMPORT"⟩] }
    else db4
  (isNew, db5)

/-- `process_pdf_file`: returns whether a new invoice-snapshot link was
created. `snapshotInfo` is `extract_snapshot_from_path` (month folder and
period key); `none` is the early skip of files outside a month folder.
`key` is the `storage_key` of the file. A pending import with the same file
path short-circuits; otherwise the snapshot is ensured, fuzzy matching runs
unless an exact (name, street, city) match exists or the name was corrected
before, a hit parks the record in `pending_imports`, and otherwise the
record is ingested. -/
def process_pdf_file (salProvider : String → Option String)
    (snapshotInfo : Option (String × String)) (key : String) (r : ParsedRecord)
    (db : DB) : Bool × DB :=
  match snapshotInfo with
  | none => (false, db)
  | some (sdate, folder) =>
    if db.pending_imports.any (fun p => p.file_path = key) then (false, db)
    else
      let sres := get_or_create_snapshot db sdate folder
      let snapId := sres.1
      let db1 := sres.2
      let nameWasCorrected := db1.customer_details.any (fun c =>
        c.customer_name = r.customer_name &&
        match c.custom_name with
        | some n => !(n = "")
        | none => false)
      let exactMatch : Nat :=
        match r.customer_street, r.customer_city with
        | some st, some ct =>
          (db1.invoices.filter (fun i =>
            i.customer_name = r.customer_name && i.customer_street = some st &&
            i.customer_city = some ct)).length
        | _, _ => 0
      let similar :=
        if exactMatch = 0 && !nameWasCorrected then
          find_similar_customers db1 r.customer_name (r.customer_street.getD "")
            (r.customer_city.getD "") 80
        else []
      if similar ≠ [] then
        (false,
         { db1 with pending_imports := db1.pending_imports ++
            [⟨key, r.invoice_number, r.invoice_date, r.customer_name,
              r.customer_street, r.customer_city, r.amount_cents, sdate, snapId⟩] })
      else
        ingestCore salProvider key r snapId db1

theorem get_or_create_snapshot_frame (db : DB) (sdate folder : String) :
    (get_or_create_snapshot db sdate folder).2.invoices = db.invoices ∧
    (get_or_create_snapshot db sdate folder).2.invoice_snapshots = db.invoice_snapshots ∧
    (get_or_create_snapshot db sdate folder).2.invoice_history = db.invoice_history ∧
    (get_or_create_snapshot db sdate folder).2.pending_imports = db.pending_imports ∧
    (get_or_create_snapshot db sdate folder).2.customer_details = db.customer_details := by
  unfold get_or_create_snapshot
  split <;> exact ⟨rfl, rfl, rfl, rfl, rfl⟩

theorem get_or_create_snapshot_find (db : DB) (sdate folder : String) :
    ∃ row : SnapshotRow,
      (get_or_create_snapshot db sdate folder).2.snapshots.find?
        (fun s => s.snapshot_date = sdate) = some row ∧
      row.id = (get_or_create_snapshot db sdate folder).1 := by
  unfold get_or_create_snapshot
  cases h : db.snapshots.find? (fun s => s.snapshot_date = sdate) with
  | some s => exact ⟨s, by rw [h], rfl⟩
  | none =>
    refine ⟨⟨db.nextSnapshotId, sdate, folder, false⟩, ?_, rfl⟩
    rw [List.find?_append, h]
    simp [List.find?]

theorem get_or_create_snapshot_stable {db : DB} {sdate : String} {row : SnapshotRow}
    (folder : String)
    (hfind : db.snapshots.find? (fun s => s.snapshot_date = sdate) = some row) :
    get_or_create_snapshot db sdate folder = (row.id, db) := by
  unfold get_or_create_snapshot
  rw [hfind]

theorem get_or_create_invoice_frame (db : DB) (r : ParsedRecord) :
    (get_or_create_invoice db r).2.snapshots = db.snapshots ∧
    (get_or_create_invoice db r).2.invoice_snapshots = db.invoice_snapshots ∧
    (get_or_create_invoice db r).2.invoice_history = db.invoice_history ∧
    (get_or_create_invoice db r).2.pending_imports = db.pending_imports ∧
    (get_or_create_invoice db r).2.customer_details = db.customer_details := by
  unfold get_or_create_invoice
  dsimp only
  split <;> exact ⟨rfl, rfl, rfl, rfl, rfl⟩

theorem get_or_create_invoice_find {r : ParsedRecord} {num : String} (db : DB)
    (hnum : r.invoice_number = some num) :
    ∃ row : InvoiceRow,
      (get_or_create_invoice db r).2.invoices.find? (fun i =>
        i.invoice_number = some num && i.customer_name = r.customer_name &&
        i.amount_cents = r.amount_cents) = some row ∧
      row.id = (get_or_create_invoice db r).1 := by
  unfold get_or_create_invoice
  rw [hnum]
  dsimp only
  cases h : db.invoices.find? (fun i =>
      i.invoice_number = some num && i.customer_name = r.customer_name &&
      i.amount_cents = r.amount_cents) with
  | some i => exact ⟨i, h, rfl⟩
  | none =>
    refine ⟨⟨db.nextInvoiceId, some num, r.customer_name, r.customer_address,
      r.customer_street, r.customer_city, r.invoice_date, r.amount_cents⟩, ?_, rfl⟩
    have hx : (db.invoices ++
        [({ id := db.nextInvoiceId, invoice_number := some num,
            customer_name := r.customer_name, customer_address := r.customer_address,
            customer_street := r.customer_street, customer_city := r.customer_city,
            invoice_date := r.invoice_date,
            amount_cents := r.amount_cents } : InvoiceRow)]).find?
        (fun i => i.invoice_number = some num && i.customer_name = r.customer_name &&
          i.amount_cents = r.amount_cents) = some
        { id := db.nextInvoiceId, invoice_number := some num,
          customer_name := r.customer_name, customer_address := r.customer_address,
          customer_street := r.customer_street, customer_city := r.customer_city,
          invoice_date := r.invoice_date, amount_cents := r.amount_cents } := by
      rw [List.find?_append, h]
      simp [List.find?]
    exact hx

theorem get_or_create_invoice_stable {db : DB} {r : ParsedRecord} {num : String}
    {row : InvoiceRow} (hnum : r.invoice_number = some num)
    (hfind : db.invoices.find? (fun i =>
      i.invoice_number = some num && i.customer_name = r.customer_name &&
      i.amount_cents = r.amount_cents) = some row) :
    get_or_create_invoice db r = (row.id, db) := by
  unfold get_or_create_invoice
  rw [hnum]
  dsimp only
  rw [hfind]

theorem link_invoice_to_snapshot_frame (db : DB) (invId snapId : Nat) (fp : String) :
    (link_invoice_to_snapshot db invId snapId fp).2.snapshots = db.snapshots ∧
    (link_invoice_to_snapshot db invId snapId fp).2.invoices = db.invoices ∧
    (link_invoice_to_snapshot db invId snapId fp).2.invoice_history = db.invoice_history ∧
    (link_invoice_to_snapshot db invId snapId fp).2.pending_imports = db.pending_imports ∧
    (link_invoice_to_snapshot db invId snapId fp).2.customer_details = db.customer_details := by
  unfold link_invoice_to_snapshot
  split <;> exact ⟨rfl, rfl, rfl, rfl, rfl⟩

theorem link_invoice_to_snapshot_linked (db : DB) (invId snapId : Nat) (fp : String) :
    (link_invoice_to_snapshot db invId snapId fp).2.linked invId snapId = true := by
  unfold link_invoice_to_snapshot
  split
  · rename_i h
    exact h
  · unfold DB.linked
    rw [List.any_append]
    simp [List.any]

theorem link_invoice_to_snapshot_second {db : DB} {invId snapId : Nat} (fp : String)
    (h : db.linked invId snapId = true) :
    link_invoice_to_snapshot db invId snapId fp = (false, db) := by
  unfold link_invoice_to_snapshot
  unfold DB.linked at h
  rw [if_pos h]

theorem upsertSalutation_frame (db : DB) (name sal : String) :
    (upsertSalutation db name sal).snapshots = db.snapshots ∧
    (upsertSalutation db name sal).invoices = db.invoices ∧
    (upsertSalutation db name sal).invoice_snapshots = db.invoice_snapshots ∧
    (upsertSalutation db name sal).invoice_history = db.invoice_history ∧
    (upsertSalutation db name sal).pending_imports = db.pending_imports := by
  unfold upsertSalutation
  split <;> exact ⟨rfl, rfl, rfl, rfl, rfl⟩

@[simp] theorem gocs_invoices (db : DB) (d f : String) :
    (get_or_create_snapshot db d f).2.invoices = db.invoices :=
  (get_or_create_snapshot_frame db d f).1

@[simp] theorem gocs_links (db : DB) (d f : String) :
    (get_or_create_snapshot db d f).2.invoice_snapshots = db.invoice_snapshots :=
  (get_or_create_snapshot_frame db d f).2.1

@[simp] theorem gocs_history (db : DB) (d f : String) :
    (get_or_create_snapshot db d f).2.invoice_history = db.invoice_history :=
  (get_or_create_snapshot_frame db d f).2.2.1

@[simp] theorem gocs_pending (db : DB) (d f : String) :
    (get_or_create_snapshot db d f).2.pending_imports = db.pending_imports :=
  (get_or_create_snapshot_frame db d f).2.2.2.1

@[simp] theorem gocs_details (db : DB) (d f : String) :
    (get_or_create_snapshot db d f).2.customer_details = db.customer_details :=
  (get_or_create_snapshot_frame db d f).2.2.2.2

@[simp] theorem goci_snapshots (db : DB) (r : ParsedRecord) :
    (get_or_create_invoice db r).2.snapshots = db.snapshots :=
  (get_or_create_invoice_frame db r).1

@[simp] theorem goci_links (db : DB) (r : ParsedRecord) :
    (get_or_create_invoice db r).2.invoice_snapshots = db.invoice_snapshots :=
  (get_or_create_invoice_frame db r).2.1

@[simp] theorem goci_history (db : DB) (r : ParsedRecord) :
    (get_or_create_invoice db r).2.invoice_history = db.invoice_history :=
  (get_or_create_invoice_frame db r).2.2.1

@[simp] theorem goci_pending (db : DB) (r : ParsedRecord) :
    (get_or_create_invoice db r).2.pending_imports = db.pending_imports :=
  (get_or_create_invoice_frame db r).2.2.2.1

@[simp] theorem goci_details (db : DB) (r : ParsedRecord) :
    (get_or_create_invoice db r).2.customer_details = db.customer_details :=
  (get_or_create_invoice_frame db r).2.2.2.2

@[simp] theorem lits_snapshots (db : DB) (i s : Nat) (fp : String) :
    (link_invoice_to_snapshot db i s fp).2.snapshots = db.snapshots :=
  (link_invoice_to_snapshot_frame db i s fp).1

@[simp] theorem lits_invoices (db : DB) (i s : Nat) (fp : String) :
    (link_invoice_to_snapshot db i s fp).2.invoices = db.invoices :=
  (link_invoice_to_snapshot_frame db i s fp).2.1

@[simp] theorem lits_history (db : DB) (i s : Nat) (fp : String) :
    (link_invoice_to_snapshot db i s fp).2.invoice_history = db.invoice_history :=
  (link_invoice_to_snapshot_frame db i s fp).2.2.1

@[simp] theorem lits_pending (db : DB) (i s : Nat) (fp : String) :
    (link_invoice_to_snapshot db i s fp).2.pending_imports = db.pending_imports :=
  (link_invoice_to_snapshot_frame db i s fp).2.2.2.1

@[simp] theorem lits_details (db : DB) (i s : Nat) (fp : String) :
    (link_invoice_to_snapshot db i s fp).2.customer_details = db.customer_details :=
  (link_invoice_to_snapshot_frame db i s fp).2.2.2.2

@[simp] theorem upsal_snapshots (db : DB) (n s : String) :
    (upsertSalutation db n s).snapshots = db.snapshots :=
  (upsertSalutation_frame db n s).1

@[simp] theorem upsal_invoices (db : DB) (n s : String) :
    (upsertSalutation db n s).invoices = db.invoices :=
  (upsertSalutation_frame db n s).2.1

@[simp] theorem upsal_links (db : DB) (n s : String) :
    (upsertSalutation db n s).invoice_snapshots = db.invoice_snapshots :=
  (upsertSalutation_frame db n s).2.2.1

@[simp] theorem upsal_history (db : DB) (n s : String) :
    (upsertSalutation db n s).invoice_history = db.invoice_history :=
  (upsertSalutation_frame db n s).2.2.2.1

@[simp] theorem upsal_pending (db : DB) (n s : String) :
    (upsertSalutation db n s).pending_imports = db.pending_imports :=
  (upsertSalutation_frame db n s).2.2.2.2

theorem ingestCore_facts (salP : String → Option String) (key : String)
    (r : ParsedRecord) (snapId : Nat) (db1 : DB) :
    (ingestCore salP key r snapId db1).2.snapshots = db1.snapshots ∧
    (ingestCore salP key r snapId db1).2.pending_imports = db1.pending_imports ∧
    (ingestCore salP key r snapId db1).2.invoices =
      (get_or_create_invoice db1 r).2.invoices ∧
    (ingestCore salP key r snapId db1).2.linked
      (get_or_create_invoice db1 r).1 snapId = true := by
  have hlk := link_invoice_to_snapshot_linked (get_or_create_invoice db1 r).2
    (get_or_create_invoice db1 r).1 snapId key
  unfold DB.linked at hlk
  unfold ingestCore DB.linked
  dsimp only
  refine ⟨?_, ?_, ?_, ?_⟩ <;> (repeat' split) <;> simp [hlk]

theorem ingestCore_second {salP : String → Option String} {key : String}
    {r : ParsedRecord} {snapId : Nat} {db : DB} {num : String} {row : InvoiceRow}
    (hnum : r.invoice_number = some num)
    (hfind : db.invoices.find? (fun i =>
      i.invoice_number = some num && i.customer_name = r.customer_name &&
      i.amount_cents = r.amount_cents) = some row)
    (hlinked : db.linked row.id snapId = true) :
    (ingestCore salP key r snapId db).1 = false ∧
    (ingestCore salP key r snapId db).2.snapshots = db.snapshots ∧
    (ingestCore salP key r snapId db).2.invoices = db.invoices ∧
    (ingestCore salP key r snapId db).2.invoice_snapshots = db.invoice_snapshots ∧
    (ingestCore salP key r snapId db).2.invoice_history = db.invoice_history ∧
    (ingestCore salP key r snapId db).2.pending_imports = db.pending_imports := by
  have hg : get_or_create_invoice db r = (row.id, db) :=
    get_or_create_invoice_stable hnum hfind
  have hl : link_invoice_to_snapshot db row.id snapId key = (false, db) :=
    link_invoice_to_snapshot_second key hlinked
  unfold ingestCore
  rw [hg]
  dsimp only
  rw [hl]
  dsimp only
  refine ⟨rfl, ?_, ?_, ?_, ?_, ?_⟩ <;> (repeat' split) <;> simp_all

theorem process_pdf_file_cases (salP : String → Option String)
    (sdate folder key : String) (r : ParsedRecord) (db : DB)
    (hpend : db.pending_imports.any (fun p => p.file_path = key) = false) :
    (∃ prow : PendingImportRow,
        process_pdf_file salP (some (sdate, folder)) key r db =
          (false, { (get_or_create_snapshot db sdate folder).2 with
            pending_imports :=
              ((get_or_create_snapshot db sdate folder).2.pending_imports ++ [prow]) }) ∧
        prow.file_path = key) ∨
    process_pdf_file salP (some (sdate, folder)) key r db =
      ingestCore salP key r (get_or_create_snapshot db sdate folder).1
        (get_or_create_snapshot db sdate folder).2 := by
  simp only [process_pdf_file]
  rw [if_neg (by simp [hpend])]
  split
  · split
    · left
      exact ⟨⟨key, r.invoice_number, r.invoice_date, r.customer_name,
        r.customer_street, r.customer_city, r.amount_cents, sdate,
        (get_or_create_snapshot db sdate folder).1⟩, rfl, rfl⟩
    · right
      rfl
  · split
    · rename_i h
      exact absurd rfl h
    · right
      rfl

theorem process_pdf_file_pending {salP : String → Option String}
    {sdate folder key : String} {r : ParsedRecord} {db : DB}
    (h : db.pending_imports.any (fun p => p.file_path = key) = true) :
    process_pdf_file salP (some (sdate, folder)) key r db = (false, db) := by
  simp only [process_pdf_file]
  rw [if_pos h]

/-- C6 amended: re-processing the same document for the same period leaves
the ledger (snapshots, invoices, links, history) unchanged and reports no
new link, provided the parsed record carries an invoice number. (Without
one the identity lookup `invoice_number = ?` can never match a NULL and a
duplicate invoice is created — see the counterexample.) The pending-review
and salutation side tables may still be written; neither is part of the
ledger. -/
theorem C6_idempotence_amended (salP : String → Option String)
    (info : Option (String × String)) (key : String) (r : ParsedRecord) (db : DB)
    (hnum : r.invoice_number ≠ none) :
    (process_pdf_file salP info key r (process_pdf_file salP info key r db).2).1 = false ∧
    (process_pdf_file salP info key r (process_pdf_file salP info key r db).2).2.snapshots =
      (process_pdf_file salP info key r db).2.snapshots ∧
    (process_pdf_file salP info key r (process_pdf_file salP info key r db).2).2.invoices =
      (process_pdf_file salP info key r db).2.invoices ∧
    (process_pdf_file salP info key r
        (process_pdf_file salP info key r db).2).2.invoice_snapshots =
      (process_pdf_file salP info key r db).2.invoice_snapshots ∧
    (process_pdf_file salP info key r
        (process_pdf_file salP info key r db).2).2.invoice_history =
      (process_pdf_file salP info key r db).2.invoice_history := by
  obtain ⟨num, hnum'⟩ : ∃ num, r.invoice_number = some num := by
    cases h : r.invoice_number with
    | none => exact absurd h hnum
    | some n => exact ⟨n, rfl⟩
  cases info with
  | none => exact ⟨rfl, rfl, rfl, rfl, rfl⟩
  | some sf =>
    obtain ⟨sdate, folder⟩ := sf
    by_cases hpend : db.pending_imports.any (fun p => p.file_path = key) = true
    · have h1 : process_pdf_file salP (some (sdate, folder)) key r db = (false, db) :=
        process_pdf_file_pending hpend
      rw [h1]
      have h2 : process_pdf_file salP (some (sdate, folder)) key r
          ((false, db) : Bool × DB).2 = (false, db) := h1
      rw [h2]
      exact ⟨rfl, rfl, rfl, rfl, rfl⟩
    · have hpend' : db.pending_imports.any (fun p => p.file_path = key) = false := by
        simpa using hpend
      rcases process_pdf_file_cases salP sdate folder key r db hpend' with
        ⟨prow, hpark, hkey⟩ | hingest
      · rw [hpark]
        have h2 : process_pdf_file salP (some (sdate, folder)) key r
            ((false, { (get_or_create_snapshot db sdate folder).2 with
              pending_imports :=
                ((get_or_create_snapshot db sdate folder).2.pending_imports ++
                  [prow]) }) : Bool × DB).2 =
            (false, { (get_or_create_snapshot db sdate folder).2 with
              pending_imports :=
                ((get_or_create_snapshot db sdate folder).2.pending_imports ++
                  [prow]) }) := by
          apply process_pdf_file_pending
          rw [List.any_append]
          simp [List.any, hkey]
        rw [h2]
        exact ⟨rfl, rfl, rfl, rfl, rfl⟩
      · rw [hingest]
        obtain ⟨fsnap, fpend, finv, flink⟩ := ingestCore_facts salP key r
          (get_or_create_snapshot db sdate folder).1 (get_or_create_snapshot db sdate folder).2
        have hpend2 : (ingestCore salP key r (get_or_create_snapshot db sdate folder).1
            (get_or_create_snapshot db sdate folder).2).2.pending_imports.any
              (fun p => p.file_path = key) = false := by
          rw [fpend, gocs_pending]
          exact hpend'
        obtain ⟨srow, hsfind, hsid⟩ := get_or_create_snapshot_find db sdate folder
        have hsfind2 : (ingestCore salP key r (get_or_create_snapshot db sdate folder).1
            (get_or_create_snapshot db sdate folder).2).2.snapshots.find?
              (fun s => s.snapshot_date = sdate) = some srow := by
          rw [fsnap]
          exact hsfind
        have hstable : get_or_create_snapshot
            (ingestCore salP key r (get_or_create_snapshot db sdate folder).1
              (get_or_create_snapshot db sdate folder).2).2 sdate folder =
            (srow.id, (ingestCore salP key r (get_or_create_snapshot db sdate folder).1
              (get_or_create_snapshot db sdate folder).2).2) :=
          get_or_create_snapshot_stable folder hsfind2
        obtain ⟨irow, hifind, hiid⟩ :=
          get_or_create_invoice_find (get_or_create_snapshot db sdate folder).2 hnum'
        have hifind2 : (ingestCore salP key r (get_or_create_snapshot db sdate folder).1
            (get_or_create_snapshot db sdate folder).2).2.invoices.find? (fun i =>
              i.invoice_number = some num && i.customer_name = r.customer_name &&
              i.amount_cents = r.amount_cents) = some irow := by
          rw [finv]
          exact hifind
        have hlinked2 : (ingestCore salP key r (get_or_create_snapshot db sdate folder).1
            (get_or_create_snapshot db sdate folder).2).2.linked irow.id
              (get_or_create_snapshot db sdate folder).1 = true := by
          rw [hiid]
          exact flink
        rcases process_pdf_file_cases salP sdate folder key r
            (ingestCore salP key r (get_or_create_snapshot db sdate folder).1
              (get_or_create_snapshot db sdate folder).2).2 hpend2 with
          ⟨prow2, hpark2, hkey2⟩ | hingest2
        · rw [hpark2, hstable]
          exact ⟨rfl, rfl, rfl, rfl, rfl⟩
        · rw [hingest2, hstable, hsid]
          obtain ⟨ha, hb, hc, hd, he, _⟩ := ingestCore_second hnum' hifind2 hlinked2
          exact ⟨ha, hb, hc, hd, he⟩

/-- An empty ledger. -/
def emptyDB : DB := ⟨[], [], [], [], [], [], [], 1, 1⟩

/-- A parsed record without an invoice number (the invoice-number pattern
found nothing in the document). -/
def recNoNumber : ParsedRecord :=
  ⟨"2025-01/a.pdf", none, "2025-01-10", "Meier", "Weg 1, Alzey", 10000,
   some "Weg 1", some "Alzey"⟩

/-- The same record with an invoice number. -/
def recWithNumber : ParsedRecord :=
  ⟨"2025-01/a.pdf", some "R1", "2025-01-10", "Meier", "Weg 1, Alzey", 10000,
   some "Weg 1", some "Alzey"⟩

/-- C6 counterexample: processing the same numberless document twice for the
same period is NOT idempotent. The identity lookup
`WHERE invoice_number = ?` binds NULL, which SQL equality never matches, so
the second run creates a second invoice row, a second link, a second IMPORT
event, and reports `True` ("new link created") instead of "no new link". -/
theorem C6_idempotence_counterexample :
    (process_pdf_file (fun _ => none) (some ("2025-01", "2025-01")) "2025-01/a.pdf"
      recNoNumber emptyDB).1 = true ∧
    (process_pdf_file (fun _ => none) (some ("2025-01", "2025-01")) "2025-01/a.pdf"
      recNoNumber emptyDB).2.invoices.length = 1 ∧
    (process_pdf_file (fun _ => none) (some ("2025-01", "2025-01")) "2025-01/a.pdf"
      recNoNumber
      (process_pdf_file (fun _ => none) (some ("2025-01", "2025-01")) "2025-01/a.pdf"
        recNoNumber emptyDB).2).1 = true ∧
    (process_pdf_file (fun _ => none) (some ("2025-01", "2025-01")) "2025-01/a.pdf"
      recNoNumber
      (process_pdf_file (fun _ => none) (some ("2025-01", "2025-01")) "2025-01/a.pdf"
        recNoNumber emptyDB).2).2.invoices.length = 2 ∧
    (process_pdf_file (fun _ => none) (some ("2025-01", "2025-01")) "2025-01/a.pdf"
      recNoNumber
      (process_pdf_file (fun _ => none) (some ("2025-01", "2025-01")) "2025-01/a.pdf"
        recNoNumber emptyDB).2).2.invoice_snapshots.length = 2 ∧
    (process_pdf_file (fun _ => none) (some ("2025-01", "2025-01")) "2025-01/a.pdf"
      recNoNumber
      (process_pdf_file (fun _ => none) (some ("2025-01", "2025-01")) "2025-01/a.pdf"
        recNoNumber emptyDB).2).2.eventCount 2 "IMPORT" = 1 := by
  exact ⟨by decide, by decide, by decide, by decide, by decide, by decide⟩

theorem C6_idempotence_amended_witness :
    (process_pdf_file (fun _ => none) (some ("2025-01", "2025-01")) "2025-01/a.pdf"
      recWithNumber
      (process_pdf_file (fun _ => none) (some ("2025-01", "2025-01")) "2025-01/a.pdf"
        recWithNumber emptyDB).2).1 = false :=
  (C6_idempotence_amended (fun _ => none) (some ("2025-01", "2025-01")) "2025-01/a.pdf"
    recWithNumber emptyDB (by decide)).1

/-! ### create_reminder and create_bulk_reminders (web_app.py)

PDF rendering, file writing and the AI salutation are collaborators outside
the database; the bulk embedding takes a `BulkEnv` whose `renderOk` says
whether building a group's combined letter PDF raises, and whose `pdfPath`
is the relative path the letter is stored under. Of each grouped invoice
only its id reaches the database (the remaining fetched columns feed the
letter contents). -/

/-- Python truthiness of a nullable TEXT value. -/
def truthy : Option String → Bool
  | none => false
  | some s => !(s = "")

/-- Result of the `/api/reminders` POST endpoint. -/
inductive CreateReminderResult where
  | ok
  | badLevel
  | notFound
deriving DecidableEq, Repr

/-- `create_reminder` (web_app.py): validate `reminder_level` against
`[0, 1, 2]`, check the invoice exists, then insert one ReminderRecord with
status `'pending'` and log one REMINDER_CREATED event. No check against the
invoice's previous reminders is made. -/
def create_reminder (db : DB) (invoice_id : Nat) (lvl : Int) :
    CreateReminderResult × DB :=
  if ¬ (lvl = 0 ∨ lvl = 1 ∨ lvl = 2) then (.badLevel, db)
  else if db.invoices.any (fun i => i.id = invoice_id) then
    (.ok,
     { db with
        reminders := db.reminders ++ [⟨invoice_id, lvl, "pending", none⟩],
        invoice_history := db.invoice_history ++ [⟨invoice_id, "REMINDER_CREATED"⟩] })
  else (.notFound, db)

/-- `get_customer_custom_address`: all three custom fields must be present
and truthy. -/
def get_customer_custom_address (db : DB) (name : String) :
    Option (String × String × String) :=
  match db.customer_details.find? (fun c => c.customer_name = name) with
  | none => none
  | some c =>
    if truthy c.custom_name && truthy c.custom_street && truthy c.custom_city then
      some (c.custom_name.getD "", c.custom_street.getD "", c.custom_city.getD "")
    else none

/-- The display name and full address used as the grouping key in
`create_bulk_reminders`: the custom address when fully set, otherwise
"street, city" when both are truthy, otherwise the stored combined
address. -/
def resolveDisplay (db : DB) (row : InvoiceRow) : String × String :=
  match get_customer_custom_address db row.customer_name with
  | some (n, st, ct) => (n, st ++ ", " ++ ct)
  | none =>
    if truthy row.customer_street && truthy row.customer_city then
      (row.customer_name,
       (row.customer_street.getD "") ++ ", " ++ (row.customer_city.getD ""))
    else (row.customer_name, row.customer_address)

/-- `defaultdict(list)` keyed by (name, address, level): append to an
existing key, otherwise add the key at the end (dict insertion order). -/
def addToGroups (gs : List ((String × String × Int) × List Nat))
    (k : String × String × Int) (e : Nat) :
    List ((String × String × Int) × List Nat) :=
  if gs.any (fun g => g.1 = k) then
    gs.map (fun g => if g.1 = k then (g.1, g.2 ++ [e]) else g)
  else gs ++ [(k, [e])]

/-- Does invoice `iid` have a link into a snapshot dated `latest`? (The
fetch query's join condition.) -/
def DB.linkedToDate (db : DB) (iid : Nat) (latest : String) : Bool :=
  db.invoice_snapshots.any (fun l =>
    l.invoice_id = iid && db.snapshots.any (fun s =>
      s.id = l.snapshot_id && s.snapshot_date = latest))

/-- One iteration of the selection loop of `create_bulk_reminders`:
skip selections with missing fields, skip levels outside 0-2, count as
"skipped, already paid" any invoice whose safety status check is not
`'open'`, drop selections whose detail fetch finds no row, and group the
rest by (display name, address, level). -/
def bulkPhase1Step (db : DB) (latest : String)
    (st : List ((String × String × Int) × List Nat) × Nat)
    (sel : Option Nat × Option Int) :
    List ((String × String × Int) × List Nat) × Nat :=
  match sel with
  | (some iid, some lvl) =>
    if lvl = 0 ∨ lvl = 1 ∨ lvl = 2 then
      if db.bulkStatusCheck latest iid = some "open" then
        match db.invoices.find? (fun i => i.id = iid) with
        | none => st
        | some row =>
          if db.linkedToDate iid latest then
            let dk := resolveDisplay db row
            (addToGroups st.1 (dk.1, dk.2, lvl) iid, st.2)
          else st
      else (st.1, st.2 + 1)
    else st
  | _ => st

/-- The whole selection loop. -/
def bulkPhase1 (db : DB) (latest : String) (sels : List (Option Nat × Option Int)) :
    List ((String × String × Int) × List Nat) × Nat :=
  sels.foldl (bulkPhase1Step db latest) ([], 0)

/-- Rendering environment of the bulk operation. -/
structure BulkEnv where
  renderOk : String × String × Int → Bool
  pdfPath : String × String × Int → String

/-- The group loop: render each group's combined letter; on success insert
one ReminderRecord (status `'pending'`, shared pdf path) and one
REMINDER_CREATED event per member invoice; a rendering exception aborts the
whole loop (`none`). Returns the final state with the `created_pdfs` and
`created_reminders` counters. -/
def bulkPhase2 (env : BulkEnv) :
    List ((String × String × Int) × List Nat) → DB → Nat → Nat →
      Option (DB × Nat × Nat)
  | [], db, pdfs, rems => some (db, pdfs, rems)
  | (k, entries) :: rest, db, pdfs, rems =>
    if env.renderOk k then
      bulkPhase2 env rest
        (entries.foldl (fun d e =>
          { d with
             reminders := d.reminders ++ [⟨e, k.2.2, "pending", some (env.pdfPath k)⟩],
             invoice_history := d.invoice_history ++ [⟨e, "REMINDER_CREATED"⟩] }) db)
        (pdfs + 1) (rems + entries.length)
    else none

/-- Result of the `/api/reminders/bulk` POST endpoint. -/
inductive BulkResult where
  | badRequest (db : DB)
  | serverError (db : DB)
  | allSkipped (skipped : Nat) (db : DB)
  | ok (created_pdfs created_reminders skipped_paid : Nat) (db : DB)
deriving DecidableEq, Repr

/-- The database state carried by a bulk result. -/
def dbOf : BulkResult → DB
  | .badRequest db => db
  | .serverError db => db
  | .allSkipped _ db => db
  | .ok _ _ _ db => db

/-- The skipped-already-paid count reported by a bulk result. -/
def skippedOf : BulkResult → Nat
  | .badRequest _ => 0
  | .serverError _ => 0
  | .allSkipped s _ => s
  | .ok _ _ s _ => s

/-- `create_bulk_reminders` (web_app.py): reject an empty selection list or
a ledger without snapshots; run the selection loop against
`MAX(snapshot_date)`; run the group loop — an exception rolls the whole
transaction back and returns a single error; otherwise commit, and report
"all skipped" when nothing was produced but selections were skipped. -/
def create_bulk_reminders (env : BulkEnv) (db : DB)
    (sels : List (Option Nat × Option Int)) : BulkResult :=
  if sels = [] then .badRequest db
  else
    match maxStr? (db.snapshots.map (fun s => s.snapshot_date)) with
    | none => .badRequest db
    | some latest =>
      let p1 := bulkPhase1 db latest sels
      match bulkPhase2 env p1.1 db 0 0 with
      | none => .serverError db
      | some (db', pdfs, rems) =>
        if pdfs = 0 ∧ 0 < p1.2 then .allSkipped p1.2 db'
        else .ok pdfs rems p1.2 db'

/-- Two open invoices of customers "A" and "B", both present in the only
snapshot. -/
def db9 : DB :=
  { snapshots := [⟨1, "2025-01", "2025-01", false⟩],
    invoices := [⟨1, some "R1", "A", "S 1, X", some "S 1", some "X", "2024-01-10", 100⟩,
                 ⟨2, some "R2", "B", "S 2, Y", some "S 2", some "Y", "2024-01-11", 200⟩],
    invoice_snapshots := [⟨1, 1, "a.pdf"⟩, ⟨2, 1, "b.pdf"⟩],
    invoice_history := [],
    reminders := [],
    customer_details := [],
    pending_imports := [],
    nextSnapshotId := 2,
    nextInvoiceId := 3 }

/-- Rendering fails exactly for customer "B"'s letter. -/
def env9 : BulkEnv := ⟨fun k => !(k.1 = "B"), fun _ => "p.pdf"⟩

/-- Rendering always succeeds. -/
def envOK : BulkEnv := ⟨fun _ => true, fun _ => "p.pdf"⟩

/-- C9 counterexample: with two selected groups where only the second
group's rendering fails, the whole call returns a single server error with
the database rolled back — customer "A"'s group, whose rendering succeeded,
gets no committed ReminderRecord and no REMINDER_CREATED event, and there is
no per-group outcome list. -/
theorem C9_partial_failure_counterexample :
    create_bulk_reminders env9 db9 [(some 1, some 0), (some 2, some 0)] =
      BulkResult.serverError db9 ∧
    env9.renderOk ("A", "S 1, X", 0) = true ∧
    (dbOf (create_bulk_reminders env9 db9 [(some 1, some 0), (some 2, some 0)])).reminders
      = [] ∧
    (dbOf (create_bulk_reminders env9 db9
      [(some 1, some 0), (some 2, some 0)])).eventCount 1 "REMINDER_CREATED" = 0 := by
  exact ⟨by decide, by decide, by decide, by decide⟩

theorem bulkPhase2_total (env : BulkEnv) (hall : ∀ k, env.renderOk k = true) :
    ∀ (gs : List ((String × String × Int) × List Nat)) (db : DB) (p r : Nat),
      ∃ out, bulkPhase2 env gs db p r = some out := by
  intro gs
  induction gs with
  | nil => intro db p r; exact ⟨(db, p, r), rfl⟩
  | cons g rest ih =>
    intro db p r
    obtain ⟨k, entries⟩ := g
    unfold bulkPhase2
    rw [if_pos (hall k)]
    exact ih _ _ _

/-- C9 amended: one group's rendering failure does not leave other groups'
records behind — it aborts the entire call: the server-error result always
carries the original, unmodified database (the transaction rolls back every
group, including ones whose rendering succeeded, and no per-group outcome
list exists); and when every group renders, no such abort happens. -/
theorem C9_abort_amended (env : BulkEnv) (db : DB)
    (sels : List (Option Nat × Option Int)) :
    (∀ db', create_bulk_reminders env db sels = .serverError db' → db' = db) ∧
    ((∀ k, env.renderOk k = true) →
      ∀ db', create_bulk_reminders env db sels ≠ .serverError db') := by
  constructor
  · intro db' h
    unfold create_bulk_reminders at h
    split at h
    · simp at h
    · split at h
      · simp at h
      · dsimp only at h
        split at h
        · rw [BulkResult.serverError.injEq] at h
          exact h.symm
        · split at h <;> simp at h
  · intro hall db' h
    unfold create_bulk_reminders at h
    split at h
    · simp at h
    · split at h
      · simp at h
      · dsimp only at h
        rename_i latest _
        obtain ⟨out, hout⟩ := bulkPhase2_total env hall
          (bulkPhase1 db latest sels).1 db 0 0
        rw [hout] at h
        dsimp only at h
        split at h <;> simp at h

theorem C9_abort_amended_witness :
    create_bulk_reminders envOK db9 [(some 1, some 0), (some 2, some 0)] ≠
      BulkResult.serverError db9 :=
  (C9_abort_amended envOK db9 [(some 1, some 0), (some 2, some 0)]).2
    (fun _ => rfl) db9

/-- The ReminderRecords of one invoice, in creation (insertion) order. -/
def remindersOf (db : DB) (iid : Nat) : List ReminderRow :=
  db.reminders.filter (fun rr => rr.invoice_id = iid)

/-- The reminder levels of one invoice, in creation order. -/
def reminderLevels (db : DB) (iid : Nat) : List Int :=
  (remindersOf db iid).map (fun rr => rr.reminder_level)

/-- The level of the invoice's most recently created reminder (the
`last_reminder` CTE: the row with `MAX(created_at)`). -/
def lastReminderLevel (db : DB) (iid : Nat) : Option Int :=
  ((remindersOf db iid).getLast?).map (fun rr => rr.reminder_level)

/-- One application of a reminder-creating operation of the system. -/
inductive ReminderOpStep : DB → DB → Prop where
  | single (db : DB) (iid : Nat) (lvl : Int) :
      ReminderOpStep db (create_reminder db iid lvl).2
  | bulk (env : BulkEnv) (db : DB) (sels : List (Option Nat × Option Int)) :
      ReminderOpStep db (dbOf (create_bulk_reminders env db sels))

/-- A per-invoice reminder-level sequence that is non-decreasing with steps
of at most one level. -/
def GoodSeq (l : List Int) : Prop :=
  List.Chain' (fun a b => a ≤ b ∧ b ≤ a + 1) l

/-- A ledger with a single invoice and no reminders. -/
def db5 : DB :=
  ⟨[], [⟨1, some "R1", "A", "S, X", some "S", some "X", "2024-01-10", 100⟩],
   [], [], [], [], [], 1, 2⟩

/-- C5 counterexample: the reminder-creating operations enforce no ordering
between levels. Two calls of the single-reminder endpoint reach, from a
fresh ledger, a state whose level sequence for invoice 1 is `[2, 0]` —
decreasing, hence neither non-decreasing nor stepping by at most one. -/
theorem C5_monotonicity_counterexample :
    Relation.ReflTransGen ReminderOpStep db5
      (create_reminder (create_reminder db5 1 2).2 1 0).2 ∧
    reminderLevels (create_reminder (create_reminder db5 1 2).2 1 0).2 1 = [2, 0] ∧
    ¬ GoodSeq (reminderLevels (create_reminder (create_reminder db5 1 2).2 1 0).2 1) := by
  refine ⟨?_, by decide, ?_⟩
  · exact Relation.ReflTransGen.tail
      (Relation.ReflTransGen.tail Relation.ReflTransGen.refl
        (ReminderOpStep.single db5 1 2))
      (ReminderOpStep.single _ 1 0)
  · intro h
    unfold GoodSeq at h
    rw [show reminderLevels (create_reminder (create_reminder db5 1 2).2 1 0).2 1 =
      [2, 0] from by decide] at h
    rw [List.chain'_cons] at h
    exact absurd h.1.1 (by decide)

/-- Every stored reminder level is one of 0, 1, 2 (the CHECK constraint of
the `reminders` table, re-established by the endpoint validations). -/
def LevelsValid (db : DB) : Prop :=
  ∀ rr ∈ db.reminders, rr.reminder_level = 0 ∨ rr.reminder_level = 1 ∨ rr.reminder_level = 2

theorem create_reminder_levels_valid (db : DB) (iid : Nat) (lvl : Int)
    (hv : LevelsValid db) : LevelsValid (create_reminder db iid lvl).2 := by
  unfold create_reminder
  split
  · exact hv
  · rename_i hval
    split
    · intro rr hrr
      rcases List.mem_append.mp hrr with h | h
      · exact hv rr h
      · have : rr = ⟨iid, lvl, "pending", none⟩ := by simpa using h
        subst this
        exact of_not_not hval
    · exact hv

theorem addToGroups_keys {P : (String × String × Int) → Prop}
    {gs : List ((String × String × Int) × List Nat)}
    {k : String × String × Int} {e : Nat}
    (h : ∀ g ∈ gs, P g.1) (hk : P k) :
    ∀ g ∈ addToGroups gs k e, P g.1 := by
  unfold addToGroups
  split
  · intro g hg
    obtain ⟨g', hg', rfl⟩ := List.mem_map.mp hg
    by_cases hgk : g'.1 = k
    · rw [if_pos hgk]
      exact h g' hg'
    · rw [if_neg hgk]
      exact h g' hg'
  · intro g hg
    rcases List.mem_append.mp hg with hh | hh
    · exact h g hh
    · have : g = (k, [e]) := by simpa using hh
      subst this
      exact hk

theorem bulkPhase1_keys (db : DB) (latest : String)
    (sels : List (Option Nat × Option Int)) :
    ∀ g ∈ (bulkPhase1 db latest sels).1,
      g.1.2.2 = 0 ∨ g.1.2.2 = 1 ∨ g.1.2.2 = 2 := by
  have main : ∀ (sels : List (Option Nat × Option Int))
      (st : List ((String × String × Int) × List Nat) × Nat),
      (∀ g ∈ st.1, g.1.2.2 = 0 ∨ g.1.2.2 = 1 ∨ g.1.2.2 = 2) →
      ∀ g ∈ (sels.foldl (bulkPhase1Step db latest) st).1,
        g.1.2.2 = 0 ∨ g.1.2.2 = 1 ∨ g.1.2.2 = 2 := by
    intro sels
    induction sels with
    | nil => intro st hst; exact hst
    | cons sel rest ih =>
      intro st hst
      rw [List.foldl_cons]
      apply ih
      unfold bulkPhase1Step
      obtain ⟨a, b⟩ := sel
      cases a with
      | none => exact hst
      | some iid =>
        cases b with
        | none => exact hst
        | some lvl =>
          dsimp only
          split
          · rename_i hlvl
            split
            · split
              · exact hst
              · split
                · exact addToGroups_keys
                    (P := fun k => k.2.2 = 0 ∨ k.2.2 = 1 ∨ k.2.2 = 2) hst hlvl
                · exact hst
            · exact hst
          · exact hst
  exact main sels ([], 0) (by simp)

theorem insertFold_valid (k : String × String × Int) (pdfp : String)
    (hk : k.2.2 = 0 ∨ k.2.2 = 1 ∨ k.2.2 = 2) :
    ∀ (entries : List Nat) (db : DB), LevelsValid db →
      LevelsValid (entries.foldl (fun d e =>
        { d with
           reminders := d.reminders ++ [⟨e, k.2.2, "pending", some pdfp⟩],
           invoice_history := d.invoice_history ++ [⟨e, "REMINDER_CREATED"⟩] }) db) := by
  intro entries
  induction entries with
  | nil => intro db hv; exact hv
  | cons e rest ih =>
    intro db hv
    rw [List.foldl_cons]
    apply ih
    intro rr hrr
    rcases List.mem_append.mp hrr with h | h
    · exact hv rr h
    · have : rr = ⟨e, k.2.2, "pending", some pdfp⟩ := by simpa using h
      subst this
      exact hk

theorem bulkPhase2_valid (env : BulkEnv) :
    ∀ (gs : List ((String × String × Int) × List Nat)) (db : DB) (p r : Nat)
      (out : DB × Nat × Nat),
      (∀ g ∈ gs, g.1.2.2 = 0 ∨ g.1.2.2 = 1 ∨ g.1.2.2 = 2) →
      LevelsValid db → bulkPhase2 env gs db p r = some out → LevelsValid out.1 := by
  intro gs
  induction gs with
  | nil =>
    intro db p r out _ hv h
    cases h
    exact hv
  | cons g rest ih =>
    intro db p r out hkeys hv h
    obtain ⟨k, entries⟩ := g
    unfold bulkPhase2 at h
    split at h
    · exact ih _ _ _ out (fun g hg => hkeys g (List.mem_cons_of_mem _ hg))
        (insertFold_valid k (env.pdfPath k)
          (hkeys (k, entries) (List.mem_cons_self _ _)) entries db hv) h
    · exact absurd h (by simp)

theorem reminderStep_levels_valid {db db' : DB} (h : ReminderOpStep db db')
    (hv : LevelsValid db) : LevelsValid db' := by
  cases h with
  | single db iid lvl => exact create_reminder_levels_valid db iid lvl hv
  | bulk env db sels =>
    unfold create_bulk_reminders
    split
    · exact hv
    · split
      · exact hv
      · rename_i latest _
        dsimp only
        split
        · exact hv
        · rename_i out db' pdfs rems hp2
          have hval := bulkPhase2_valid env (bulkPhase1 db latest sels).1 db 0 0
            (db', pdfs, rems) (bulkPhase1_keys db latest sels) hv hp2
          split
          · exact hval
          · exact hval

theorem recommended_some_cases {m : Int} {lastL : Option Int} {lvl : Int}
    (h : get_recommended_reminder_level m lastL = some lvl) :
    (lastL = none ∧ lvl = 0) ∨ (lastL = some 0 ∧ lvl = 1) ∨
    (lastL = some 1 ∧ lvl = 2) := by
  unfold get_recommended_reminder_level at h
  split at h
  · simp at h
  · split at h
    · split at h
      · exact Or.inl ⟨rfl, (Option.some.injEq _ _ ▸ h).symm⟩
      · simp at h
    · split at h
      · exact Or.inr (Or.inl ⟨rfl, (Option.some.injEq _ _ ▸ h).symm⟩)
      · simp at h
    · split at h
      · exact Or.inr (Or.inr ⟨rfl, (Option.some.injEq _ _ ▸ h).symm⟩)
      · simp at h
    · simp at h

theorem remindersOf_insert (db : DB) (iid : Nat) (lvl : Int)
    (hist : List HistoryRow) :
    remindersOf { db with
        reminders := db.reminders ++ [⟨iid, lvl, "pending", none⟩],
        invoice_history := hist } iid =
      remindersOf db iid ++ [⟨iid, lvl, "pending", none⟩] := by
  unfold remindersOf
  dsimp only
  rw [List.filter_append]
  simp [List.filter]

/-- C5 amended: the reminder-creating operations enforce only that each
stored level is one of 0, 1, 2 — an invariant preserved by every operation
and so by every reachable state — but no ordering between levels: the level
is taken from the request (see the counterexample). Per-invoice monotone,
no-skip escalation holds exactly for the recommended-level flow: appending a
reminder at the level recommended for the invoice's last reminder keeps its
creation-ordered level sequence non-decreasing with steps of at most one. -/
theorem C5_escalation_amended :
    (∀ db db' : DB, ReminderOpStep db db' → LevelsValid db → LevelsValid db') ∧
    (∀ db db' : DB, Relation.ReflTransGen ReminderOpStep db db' →
      LevelsValid db → LevelsValid db') ∧
    (∀ (db : DB) (iid : Nat) (m lvl : Int),
      GoodSeq (reminderLevels db iid) →
      get_recommended_reminder_level m (lastReminderLevel db iid) = some lvl →
      GoodSeq (reminderLevels (create_reminder db iid lvl).2 iid)) := by
  refine ⟨fun db db' h hv => reminderStep_levels_valid h hv, ?_, ?_⟩
  · intro db db' h hv
    induction h with
    | refl => exact hv
    | tail _ step ih => exact reminderStep_levels_valid step ih
  · intro db iid m lvl hgood hrec
    have hcases := recommended_some_cases hrec
    have hlvl : lvl = 0 ∨ lvl = 1 ∨ lvl = 2 := by
      rcases hcases with ⟨_, rfl⟩ | ⟨_, rfl⟩ | ⟨_, rfl⟩ <;> simp
    unfold create_reminder
    rw [if_neg (not_not_intro hlvl)]
    split
    · have hlv : reminderLevels ({ db with
          reminders := db.reminders ++ [⟨iid, lvl, "pending", none⟩],
          invoice_history := db.invoice_history ++ [⟨iid, "REMINDER_CREATED"⟩] }) iid =
          reminderLevels db iid ++ [lvl] := by
        unfold reminderLevels
        rw [remindersOf_insert]
        simp
      show GoodSeq (reminderLevels _ iid)
      unfold GoodSeq at hgood ⊢
      rw [hlv, List.chain'_append]
      refine ⟨hgood, List.chain'_singleton lvl, ?_⟩
      intro x hx y hy
      have hy' : lvl = y := by simpa using hy
      rw [← hy']
      have hlast : lastReminderLevel db iid = (reminderLevels db iid).getLast? := by
        unfold lastReminderLevel reminderLevels
        rw [List.getLast?_map]
      rw [Option.mem_def] at hx
      rw [hx] at hlast
      rcases hcases with ⟨hn, _⟩ | ⟨hs, rfl⟩ | ⟨hs, rfl⟩
      · rw [hn] at hlast
        exact absurd hlast.symm (by simp)
      · rw [hs] at hlast
        have : x = 0 := by simpa using hlast.symm
        subst this
        exact ⟨by omega, by omega⟩
      · rw [hs] at hlast
        have : x = 1 := by simpa using hlast.symm
        subst this
        exact ⟨by omega, by omega⟩
    · exact hgood

theorem C5_escalation_amended_witness :
    GoodSeq (reminderLevels
      (create_reminder (create_reminder db5 1 0).2 1 1).2 1) :=
  C5_escalation_amended.2.2 (create_reminder db5 1 0).2 1 3 1
    (by
      rw [show reminderLevels (create_reminder db5 1 0).2 1 = [0] from by decide]
      exact List.chain'_singleton 0)
    (by decide)

/-- A selection that the bulk loop counts as "skipped, already paid": both
fields present, level valid, safety status check not `'open'`. -/
def skippedPred (db : DB) (latest : String) : Option Nat × Option Int → Bool
  | (some iid, some lvl) =>
    (decide (lvl = 0) || decide (lvl = 1) || decide (lvl = 2)) &&
    !(decide (db.bulkStatusCheck latest iid = some "open"))
  | _ => false

/-- A selection that passes the safety check: both fields present, level
valid, status `'open'`. -/
def openSel (db : DB) (latest : String) : Option Nat × Option Int → Bool
  | (some iid, some lvl) =>
    (decide (lvl = 0) || decide (lvl = 1) || decide (lvl = 2)) &&
    decide (db.bulkStatusCheck latest iid = some "open")
  | _ => false

theorem addToGroups_entries {P : Nat → Prop}
    {gs : List ((String × String × Int) × List Nat)}
    {k : String × String × Int} {e : Nat}
    (h : ∀ g ∈ gs, ∀ e' ∈ g.2, P e') (hk : P e) :
    ∀ g ∈ addToGroups gs k e, ∀ e' ∈ g.2, P e' := by
  unfold addToGroups
  split
  · intro g hg
    obtain ⟨g', hg', rfl⟩ := List.mem_map.mp hg
    by_cases hgk : g'.1 = k
    · rw [if_pos hgk]
      intro e' he'
      rcases List.mem_append.mp he' with hh | hh
      · exact h g' hg' e' hh
      · have : e' = e := by simpa using hh
        subst this
        exact hk
    · rw [if_neg hgk]
      exact h g' hg'
  · intro g hg
    rcases List.mem_append.mp hg with hh | hh
    · exact h g hh
    · have : g = (k, [e]) := by simpa using hh
      subst this
      intro e' he'
      have : e' = e := by simpa using he'
      subst this
      exact hk

theorem bulkPhase1_entries_open (db : DB) (latest : String)
    (sels : List (Option Nat × Option Int)) :
    ∀ g ∈ (bulkPhase1 db latest sels).1, ∀ e ∈ g.2,
      db.bulkStatusCheck latest e = some "open" := by
  have main : ∀ (sels : List (Option Nat × Option Int))
      (st : List ((String × String × Int) × List Nat) × Nat),
      (∀ g ∈ st.1, ∀ e ∈ g.2, db.bulkStatusCheck latest e = some "open") →
      ∀ g ∈ (sels.foldl (bulkPhase1Step db latest) st).1, ∀ e ∈ g.2,
        db.bulkStatusCheck latest e = some "open" := by
    intro sels
    induction sels with
    | nil => intro st hst; exact hst
    | cons sel rest ih =>
      intro st hst
      rw [List.foldl_cons]
      apply ih
      unfold bulkPhase1Step
      obtain ⟨a, b⟩ := sel
      cases a with
      | none => exact hst
      | some iid =>
        cases b with
        | none => exact hst
        | some lvl =>
          dsimp only
          split
          · split
            · rename_i hopen
              split
              · exact hst
              · split
                · exact addToGroups_entries
                    (P := fun e => db.bulkStatusCheck latest e = some "open") hst hopen
                · exact hst
            · exact hst
          · exact hst
  exact main sels ([], 0) (by simp)

theorem bulkPhase1Step_fst (db : DB) (latest : String)
    (g : List ((String × String × Int) × List Nat)) (s s' : Nat)
    (sel : Option Nat × Option Int) :
    (bulkPhase1Step db latest (g, s) sel).1 = (bulkPhase1Step db latest (g, s') sel).1 := by
  unfold bulkPhase1Step
  obtain ⟨a, b⟩ := sel
  cases a with
  | none => rfl
  | some iid =>
    cases b with
    | none => rfl
    | some lvl =>
      dsimp only
      split
      · split
        · split
          · rfl
          · split <;> rfl
        · rfl
      · rfl

theorem bulkPhase1Step_fst_not_open (db : DB) (latest : String)
    (g : List ((String × String × Int) × List Nat)) (s : Nat)
    (sel : Option Nat × Option Int) (h : openSel db latest sel = false) :
    (bulkPhase1Step db latest (g, s) sel).1 = g := by
  unfold bulkPhase1Step
  obtain ⟨a, b⟩ := sel
  cases a with
  | none => rfl
  | some iid =>
    cases b with
    | none => rfl
    | some lvl =>
      unfold openSel at h
      dsimp only
      split
      · rename_i hlvl
        split
        · rename_i hopen
          exact absurd h (by rcases hlvl with h0 | h0 | h0 <;> simp [hopen, h0])
        · rfl
      · rfl

theorem bulkPhase1Step_snd_skip (db : DB) (latest : String)
    (st : List ((String × String × Int) × List Nat) × Nat)
    (sel : Option Nat × Option Int) :
    (bulkPhase1Step db latest st sel).2 =
      st.2 + (if skippedPred db latest sel = true then 1 else 0) := by
  unfold bulkPhase1Step skippedPred
  obtain ⟨a, b⟩ := sel
  cases a with
  | none => simp
  | some iid =>
    cases b with
    | none => simp
    | some lvl =>
      dsimp only
      split
      · rename_i hlvl
        split
        · rename_i hopen
          have : ((decide (lvl = 0) || decide (lvl = 1) || decide (lvl = 2)) &&
              !decide (db.bulkStatusCheck latest iid = some "open")) = false := by
            simp [hopen]
          rw [this]
          split
          · simp
          · split <;> simp
        · rename_i hopen
          have : ((decide (lvl = 0) || decide (lvl = 1) || decide (lvl = 2)) &&
              !decide (db.bulkStatusCheck latest iid = some "open")) = true := by
            rcases hlvl with h0 | h0 | h0 <;> simp [hopen, h0]
          rw [this]
          simp
      · rename_i hlvl
        have : ((decide (lvl = 0) || decide (lvl = 1) || decide (lvl = 2)) &&
            !decide (db.bulkStatusCheck latest iid = some "open")) = false := by
          have h0 : ¬ lvl = 0 := fun h => hlvl (Or.inl h)
          have h1 : ¬ lvl = 1 := fun h => hlvl (Or.inr (Or.inl h))
          have h2 : ¬ lvl = 2 := fun h => hlvl (Or.inr (Or.inr h))
          simp [h0, h1, h2]
        rw [this]
        simp

theorem bulkPhase1_skipped (db : DB) (latest : String)
    (sels : List (Option Nat × Option Int)) :
    (bulkPhase1 db latest sels).2 = (sels.filter (skippedPred db latest)).length := by
  have main : ∀ (sels : List (Option Nat × Option Int))
      (st : List ((String × String × Int) × List Nat) × Nat),
      (sels.foldl (bulkPhase1Step db latest) st).2 =
        st.2 + (sels.filter (skippedPred db latest)).length := by
    intro sels
    induction sels with
    | nil => intro st; simp
    | cons sel rest ih =>
      intro st
      rw [List.foldl_cons, ih, bulkPhase1Step_snd_skip, List.filter_cons]
      by_cases h : skippedPred db latest sel = true
      · rw [if_pos h, if_pos h]
        simp only [List.length_cons]
        omega
      · rw [if_neg h, if_neg h]
        omega
  simpa [bulkPhase1] using main sels ([], 0)

theorem bulkPhase1_groups_filter (db : DB) (latest : String)
    (sels : List (Option Nat × Option Int)) :
    (bulkPhase1 db latest sels).1 =
      (bulkPhase1 db latest (sels.filter (openSel db latest))).1 := by
  have main : ∀ (sels : List (Option Nat × Option Int))
      (g : List ((String × String × Int) × List Nat)) (s s' : Nat),
      ((sels.foldl (bulkPhase1Step db latest) (g, s))).1 =
        (((sels.filter (openSel db latest)).foldl (bulkPhase1Step db latest) (g, s'))).1 := by
    intro sels
    induction sels with
    | nil => intro g s s'; simp
    | cons sel rest ih =>
      intro g s s'
      rw [List.foldl_cons, List.filter_cons]
      by_cases h : openSel db latest sel = true
      · rw [if_pos h, List.foldl_cons]
        rcases hst1 : bulkPhase1Step db latest (g, s) sel with ⟨G1, t1⟩
        rcases hst2 : bulkPhase1Step db latest (g, s') sel with ⟨G2, t2⟩
        have hfst := bulkPhase1Step_fst db latest g s s' sel
        rw [hst1, hst2] at hfst
        dsimp only at hfst
        rw [← hfst]
        exact ih G1 t1 t2
      · rw [if_neg h]
        rcases hst1 : bulkPhase1Step db latest (g, s) sel with ⟨G1, t1⟩
        have hg : G1 = g := by
          have := bulkPhase1Step_fst_not_open db latest g s sel (Bool.not_eq_true _ ▸ h)
          rw [hst1] at this
          exact this
        rw [hg]
        exact ih g t1 s'
  exact main sels [] 0 0

theorem insertFold_untouched (env : BulkEnv) (k : String × String × Int) (iid : Nat) :
    ∀ (entries : List Nat) (db : DB), (∀ e ∈ entries, e ≠ iid) →
      remindersOf (entries.foldl (fun d e =>
        { d with
           reminders := d.reminders ++ [⟨e, k.2.2, "pending", some (env.pdfPath k)⟩],
           invoice_history := d.invoice_history ++ [⟨e, "REMINDER_CREATED"⟩] }) db) iid
        = remindersOf db iid ∧
      (entries.foldl (fun d e =>
        { d with
           reminders := d.reminders ++ [⟨e, k.2.2, "pending", some (env.pdfPath k)⟩],
           invoice_history := d.invoice_history ++ [⟨e, "REMINDER_CREATED"⟩] }) db).eventCount
          iid "REMINDER_CREATED" = db.eventCount iid "REMINDER_CREATED" := by
  intro entries
  induction entries with
  | nil => intro db _; exact ⟨rfl, rfl⟩
  | cons e rest ih =>
    intro db h
    rw [List.foldl_cons]
    have he : e ≠ iid := h e (List.mem_cons_self e rest)
    have hrest : ∀ x ∈ rest, x ≠ iid := fun x hx => h x (List.mem_cons_of_mem e hx)
    obtain ⟨h1, h2⟩ := ih _ hrest
    refine ⟨h1.trans ?_, h2.trans ?_⟩
    · simp [remindersOf, List.filter_append, he]
    · simp [DB.eventCount, List.filter_append, he]

theorem bulkPhase2_untouched (env : BulkEnv) (iid : Nat) :
    ∀ (gs : List ((String × String × Int) × List Nat)) (db : DB) (p r : Nat)
      (out : DB × Nat × Nat),
      (∀ g ∈ gs, ∀ e ∈ g.2, e ≠ iid) →
      bulkPhase2 env gs db p r = some out →
      remindersOf out.1 iid = remindersOf db iid ∧
      out.1.eventCount iid "REMINDER_CREATED" = db.eventCount iid "REMINDER_CREATED" := by
  intro gs
  induction gs with
  | nil =>
    intro db p r out _ hout
    simp only [bulkPhase2, Option.some.injEq] at hout
    rw [← hout]
    exact ⟨rfl, rfl⟩
  | cons g rest ih =>
    intro db p r out h hout
    obtain ⟨k, entries⟩ := g
    simp only [bulkPhase2] at hout
    split at hout
    · have hg : ∀ e ∈ entries, e ≠ iid := by
        intro e he
        exact h (k, entries) (List.mem_cons_self _ _) e he
      have hrest : ∀ g ∈ rest, ∀ e ∈ g.2, e ≠ iid :=
        fun g hgm => h g (List.mem_cons_of_mem _ hgm)
      obtain ⟨h1, h2⟩ := ih _ _ _ _ hrest hout
      obtain ⟨f1, f2⟩ := insertFold_untouched env k iid entries db hg
      exact ⟨h1.trans f1, h2.trans f2⟩
    · exact absurd hout (by simp)

theorem create_bulk_eval (env : BulkEnv) (db : DB)
    (sels : List (Option Nat × Option Int)) (latest : String)
    (hlatest : maxStr? (db.snapshots.map (fun s => s.snapshot_date)) = some latest)
    (hnil : ¬ sels = []) :
    create_bulk_reminders env db sels =
      match bulkPhase2 env (bulkPhase1 db latest sels).1 db 0 0 with
      | none => .serverError db
      | some (db', pdfs, rems) =>
        if pdfs = 0 ∧ 0 < (bulkPhase1 db latest sels).2 then
          .allSkipped (bulkPhase1 db latest sels).2 db'
        else .ok pdfs rems (bulkPhase1 db latest sels).2 db' := by
  unfold create_bulk_reminders
  rw [if_neg hnil, hlatest]

/-- C4: the bulk reminder operation re-verifies each selected invoice at
execution time. (1) An invoice whose status re-check against the latest
snapshot is not `'open'` gets no new ReminderRecord and no REMINDER_CREATED
event from the call, whatever the outcome. (2) A well-formed selection
(invoice id and a level 0-2 present) is counted by the skip predicate
exactly when its re-check is not `'open'`. (3/4) The skipped-already-paid
total reported by a successful or all-skipped outcome is exactly the number
of selections satisfying the skip predicate. (5) Dropping the skipped
selections beforehand yields the same final database, so the remaining
selections are processed unaffected. -/
theorem C4_safety_recheck (env : BulkEnv) (db : DB)
    (sels : List (Option Nat × Option Int)) (latest : String)
    (hlatest : maxStr? (db.snapshots.map (fun s => s.snapshot_date)) = some latest) :
    (∀ iid : Nat, db.bulkStatusCheck latest iid ≠ some "open" →
      remindersOf (dbOf (create_bulk_reminders env db sels)) iid = remindersOf db iid ∧
      (dbOf (create_bulk_reminders env db sels)).eventCount iid "REMINDER_CREATED" =
        db.eventCount iid "REMINDER_CREATED") ∧
    (∀ (iid : Nat) (lvl : Int), skippedPred db latest (some iid, some lvl) = true ↔
      ((lvl = 0 ∨ lvl = 1 ∨ lvl = 2) ∧ db.bulkStatusCheck latest iid ≠ some "open")) ∧
    (∀ p r s db', create_bulk_reminders env db sels = .ok p r s db' →
      s = (sels.filter (skippedPred db latest)).length) ∧
    (∀ s db', create_bulk_reminders env db sels = .allSkipped s db' →
      s = (sels.filter (skippedPred db latest)).length) ∧
    dbOf (create_bulk_reminders env db sels) =
      dbOf (create_bulk_reminders env db (sels.filter (openSel db latest))) := by
  refine ⟨?_, ?_, ?_, ?_, ?_⟩
  · intro iid hiid
    by_cases hnil : sels = []
    · subst hnil
      exact ⟨rfl, rfl⟩
    · rw [create_bulk_eval env db sels latest hlatest hnil]
      have hne : ∀ g ∈ (bulkPhase1 db latest sels).1, ∀ e ∈ g.2, e ≠ iid := by
        intro g hg e he heq
        exact hiid (heq ▸ bulkPhase1_entries_open db latest sels g hg e he)
      cases hv : bulkPhase2 env (bulkPhase1 db latest sels).1 db 0 0 with
      | none => exact ⟨rfl, rfl⟩
      | some out =>
        obtain ⟨db', pdfs, rems⟩ := out
        obtain ⟨h1, h2⟩ := bulkPhase2_untouched env iid _ db 0 0 (db', pdfs, rems) hne hv
        dsimp only
        split
        · exact ⟨h1, h2⟩
        · exact ⟨h1, h2⟩
  · intro iid lvl
    simp only [skippedPred, Bool.and_eq_true, Bool.or_eq_true, decide_eq_true_eq,
      Bool.not_eq_true', decide_eq_false_iff_not]
    tauto
  · intro p r s db' hres
    by_cases hnil : sels = []
    · subst hnil
      simp [create_bulk_reminders] at hres
    · rw [create_bulk_eval env db sels latest hlatest hnil] at hres
      split at hres
      · exact absurd hres (by simp)
      · split at hres
        · exact absurd hres (by simp)
        · injection hres with e1 e2 e3 e4
          rw [← e3, bulkPhase1_skipped]
  · intro s db' hres
    by_cases hnil : sels = []
    · subst hnil
      simp [create_bulk_reminders] at hres
    · rw [create_bulk_eval env db sels latest hlatest hnil] at hres
      split at hres
      · exact absurd hres (by simp)
      · split at hres
        · injection hres with e1 e2
          rw [← e1, bulkPhase1_skipped]
        · exact absurd hres (by simp)
  · by_cases hnil : sels = []
    · subst hnil
      rfl
    · by_cases hnil2 : sels.filter (openSel db latest) = []
      · rw [create_bulk_eval env db sels latest hlatest hnil]
        have hgroups : (bulkPhase1 db latest sels).1 = [] := by
          rw [bulkPhase1_groups_filter, hnil2]
          rfl
        rw [hgroups, hnil2]
        simp only [bulkPhase2]
        split
        · rfl
        · rfl
      · rw [create_bulk_eval env db sels latest hlatest hnil,
            create_bulk_eval env db (sels.filter (openSel db latest)) latest hlatest hnil2,
            ← bulkPhase1_groups_filter]
        cases hv : bulkPhase2 env (bulkPhase1 db latest sels).1 db 0 0 with
        | none => rfl
        | some out =>
          obtain ⟨db', pdfs, rems⟩ := out
          dsimp only
          split <;> split <;> rfl

/-- db9 extended with an older snapshot `2024-12` and an invoice 3 linked
only to it: invoice 3 is absent from the latest snapshot, i.e. paid. -/
def db9b : DB :=
  { snapshots := [⟨1, "2025-01", "2025-01", false⟩, ⟨2, "2024-12", "2024-12", false⟩],
    invoices := [⟨1, some "R1", "A", "S 1, X", some "S 1", some "X", "2024-01-10", 100⟩,
                 ⟨2, some "R2", "B", "S 2, Y", some "S 2", some "Y", "2024-01-11", 200⟩,
                 ⟨3, some "R3", "C", "S 3, Z", some "S 3", some "Z", "2024-01-12", 300⟩],
    invoice_snapshots := [⟨1, 1, "a.pdf"⟩, ⟨2, 1, "b.pdf"⟩, ⟨3, 2, "c.pdf"⟩],
    invoice_history := [],
    reminders := [],
    customer_details := [],
    pending_imports := [],
    nextSnapshotId := 3,
    nextInvoiceId := 4 }

/-- Witness for C4 at a concrete ledger: invoice 3 is paid (its re-check is
not `'open'`); after a bulk call that selects it together with two open
invoices, it has no ReminderRecord and no REMINDER_CREATED event, and the
reported skipped-already-paid total is 1. -/
theorem C4_safety_recheck_witness :
    db9b.bulkStatusCheck "2025-01" 3 ≠ some "open" ∧
    remindersOf (dbOf (create_bulk_reminders envOK db9b
      [(some 1, some 0), (some 3, some 1), (some 2, some 0)])) 3 = remindersOf db9b 3 ∧
    (dbOf (create_bulk_reminders envOK db9b
      [(some 1, some 0), (some 3, some 1), (some 2, some 0)])).eventCount
        3 "REMINDER_CREATED" = db9b.eventCount 3 "REMINDER_CREATED" ∧
    skippedOf (create_bulk_reminders envOK db9b
      [(some 1, some 0), (some 3, some 1), (some 2, some 0)]) = 1 := by
  have h := (C4_safety_recheck envOK db9b
    [(some 1, some 0), (some 3, some 1), (some 2, some 0)] "2025-01" (by decide)).1
    3 (by decide)
  exact ⟨by decide, h.1, h.2, by decide⟩
